import Mathlib

/-!
Shallow embedding of the gordo-dataset core (partition model, NCS location
resolver, series reader and join/resample engine) together with proofs of
the specified properties.  Python functions become Lean functions; raised
exceptions become `Except` results; `pandas` NaN cells become `Option`
values (`none` is NaN); machine floats are modelled by rationals.
-/

namespace GordoDataset

/-- Errors raised by the embedded code.  `valueError`, `runtimeError` and
`indexError` model the built-in Python exceptions of the same names;
`configException` models `gordo_dataset.exceptions.ConfigException` (a
`ValueError` subclass); `insufficientData` models
`gordo_dataset.exceptions.InsufficientDataError` (its class body is not in
the sources; per the spec it is a fatal, diagnostic-rich error that names
every offending series, so it carries the list of series names that the
raise site in `join_timeseries` formats into its message). -/
inductive PyError where
  | valueError (msg : String)
  | configException (msg : String)
  | runtimeError (msg : String)
  | indexError
  | insufficientData (features : List (Option String))
deriving DecidableEq, Repr

/-- Model of `datetime.datetime`: the calendar year and month which the
partition model inspects, and a single integer `sub` standing for all the
finer components (day, hour, minute, ...) below month granularity.  The
ordering of datetimes is lexicographic on `(year, month, sub)`. -/
structure PyDateTime where
  year : Int
  month : Int
  sub : Int
deriving DecidableEq, Repr

/-- Lexicographic strict order of datetimes. -/
def dtLt (a b : PyDateTime) : Bool :=
  decide (a.year < b.year ∨ (a.year = b.year ∧
    (a.month < b.month ∨ (a.month = b.month ∧ a.sub < b.sub))))

/-- Lexicographic order of datetimes. -/
def dtLe (a b : PyDateTime) : Bool :=
  decide (a.year < b.year ∨ (a.year = b.year ∧
    (a.month < b.month ∨ (a.month = b.month ∧ a.sub ≤ b.sub))))

/-- A structurally well-formed datetime: the month lies in 1..12
(as guaranteed by the `datetime.datetime` constructor). -/
def dtValid (a : PyDateTime) : Prop :=
  1 ≤ a.month ∧ a.month ≤ 12

/-- Embeds `data_provider.partition`: the tagged union of `YearPartition` and
`MonthPartition` (both frozen dataclasses). -/
inductive Partition where
  | year (year : Int)
  | month (year : Int) (month : Int)
deriving DecidableEq, Repr

/-- The `__lt__` comparisons of `YearPartition` and `MonthPartition`.
Comparing across the two variants raises in the source; it never happens
in the functions embedded here (partition sets are homogeneous), so the
cross-variant cases are given the value `false`. -/
def Partition.lt : Partition → Partition → Bool
  | .year y1, .year y2 => decide (y1 < y2)
  | .month y1 m1, .month y2 m2 =>
      if y1 = y2 then decide (m1 < m2) else decide (y1 < y2)
  | _, _ => false

/-- The `PartitionBy` enum with values "year" and "month". -/
inductive PartitionBy where
  | year
  | month
deriving DecidableEq, Repr

/-- The string value carried by each `PartitionBy` enum member. -/
def PartitionBy.value : PartitionBy → String
  | .year => "year"
  | .month => "month"

/-- Embeds `a :: a + 1 :: ... :: a + n - 1`, the list produced by a Python
`range` loop of `n` iterations starting at `a`. -/
def intRangeAux (a : Int) : Nat → List Int
  | 0 => []
  | n + 1 => a :: intRangeAux (a + 1) n

/-- The inclusive integer range, modelling Python `range(a, b + 1)`. -/
def intRange (a b : Int) : List Int := intRangeAux a (b - a + 1).toNat

/-- The year partitions yielded by `split_by_partitions` for
`PartitionBy.YEAR`: one per year of `range(start.year, end.year + 1)`. -/
def yearPartitionsList (start_period end_period : PyDateTime) : List Partition :=
  (intRange start_period.year end_period.year).map Partition.year

/-- The month partitions yielded by `split_by_partitions` for
`PartitionBy.MONTH`: for every year of `range(start.year, end.year + 1)`
and every month of `range(1, 13)`, skipping (via `continue`) the months
before the start month in the start year and the months after the end
month in the end year. -/
def monthPartitionsList (start_period end_period : PyDateTime) : List Partition :=
  (intRange start_period.year end_period.year).flatMap (fun y =>
    ((intRange 1 12).filter (fun m =>
      decide (¬((y = start_period.year ∧ m < start_period.month) ∨
        (y = end_period.year ∧ m > end_period.month))))).map
      (Partition.month y))

/-- Embeds `partition.split_by_partitions`.  Yields `YearPartition` values for
every year from the start year to the end year, or `MonthPartition`
values for every month of those years outside the skipped leading and
trailing months.  Raises `ValueError` when the start datetime is after
the end datetime. -/
def split_by_partitions (partition_by : PartitionBy)
    (start_period end_period : PyDateTime) : Except PyError (List Partition) :=
  if dtLt end_period start_period then
    .error (.valueError "start_period bigger then end_period.")
  else
    .ok (match partition_by with
      | .year => yearPartitionsList start_period end_period
      | .month => monthPartitionsList start_period end_period)

/-- A calendar month `(y, m)` overlaps the closed datetime interval
`[s, e]` when some well-formed instant of that month lies in the
interval. -/
def monthOverlaps (y m : Int) (s e : PyDateTime) : Prop :=
  ∃ t : PyDateTime, dtValid t ∧ t.year = y ∧ t.month = m ∧
    dtLe s t = true ∧ dtLe t e = true

/-- A calendar year `y` overlaps the closed datetime interval `[s, e]`
when some well-formed instant of that year lies in the interval. -/
def yearOverlaps (y : Int) (s e : PyDateTime) : Prop :=
  ∃ t : PyDateTime, dtValid t ∧ t.year = y ∧
    dtLe s t = true ∧ dtLe t e = true

/-! ### Percent-encoding of tag names -/

/-- Upper-case hexadecimal digit of a value below 16. -/
def hexDigit (n : Nat) : Char :=
  if n < 10 then Char.ofNat (48 + n) else Char.ofNat (55 + n)

/-- The bytes `urllib.parse.quote` never encodes: ASCII letters, digits
and the characters `_`, `.`, `-`, `~`. -/
def isAlwaysSafeByte (b : UInt8) : Bool :=
  decide ((65 ≤ b.toNat ∧ b.toNat ≤ 90) ∨ (97 ≤ b.toNat ∧ b.toNat ≤ 122) ∨
    (48 ≤ b.toNat ∧ b.toNat ≤ 57) ∨ b.toNat = 95 ∨ b.toNat = 46 ∨
    b.toNat = 45 ∨ b.toNat = 126)

/-- One byte of `urllib.parse.quote` output with the space character kept
literal (the `safe` argument is a single space in `quote_tag_name`). -/
def quoteByte (b : UInt8) : String :=
  if isAlwaysSafeByte b || b == 32 then String.singleton (Char.ofNat b.toNat)
  else "%" ++ String.singleton (hexDigit (b.toNat / 16)) ++
    String.singleton (hexDigit (b.toNat % 16))

/-- Embeds `NcsLookup.quote_tag_name`: percent-encode the UTF-8 bytes of a tag
name, keeping spaces literal. -/
def quote_tag_name (tag_name : String) : String :=
  String.join ((tag_name.data.flatMap String.utf8EncodeChar).map quoteByte)

/-! ### Sensors, file formats and the storage collaborator -/

/-- Modelled from the spec: `SensorTag` (module `sensor_tag` is not in the
sources); per the data model it is an immutable identity value of a name
and an optional asset, equal by value. -/
structure SensorTag where
  name : String
  asset : Option String
deriving DecidableEq, Repr

/-- Python truthiness test `not tag.asset`: the asset is absent or the
empty string. -/
def SensorTag.assetFalsy (tag : SensorTag) : Bool :=
  match tag.asset with
  | none => true
  | some a => a.isEmpty

/-- The two `file_type.FileType` readers the probes instantiate:
`ParquetFileType` and `CsvFileType` over Time/Value/Status columns.  Only
the file extension and the reading capability are observable here. -/
inductive FileType where
  | parquetFile
  | csvFile
deriving DecidableEq, Repr

/-- The `file_extension` attribute of each reader. -/
def FileType.file_extension : FileType → String
  | .parquetFile => ".parquet"
  | .csvFile => ".csv"

/-- The stat result of a path: directory flag and byte size. -/
structure FileInfo where
  isDirectory : Bool
  size : Int
deriving DecidableEq, Repr

/-- Embeds `FileInfo.isdir`. -/
def FileInfo.isdir (fi : FileInfo) : Bool := fi.isDirectory

/-- A timestamped frame as produced by `FileType.read_df`: rows of
(datetime index, Value, Status).  A `none` Value is a NaN cell. -/
structure TsDataFrame where
  rows : List (PyDateTime × Option ℚ × Int)
deriving DecidableEq, Repr

/-- Modelled from the spec: the Storage collaborator (`file_system.base`
is not in the sources).  Per the external-interface contract it provides
listing, stat with a distinguishable not-found condition (`none` here,
standing for a raised `FileNotFoundError`), reading (exposed as the rows
the format reader decodes from the opened bytes, `none` when opening hits
the not-found condition) and path join/split. -/
structure FileSystem where
  name : String
  files : String → Option FileInfo
  lsEntries : String → List (String × Option FileInfo)
  readDf : String → FileType → Option TsDataFrame

/-- Embeds `exists`: whether stat succeeds. -/
def FileSystem.pathExists (fs : FileSystem) (path : String) : Bool :=
  (fs.files path).isSome

/-- Embeds `info`: the stat result, `none` when `FileNotFoundError` is raised. -/
def FileSystem.info (fs : FileSystem) (path : String) : Option FileInfo :=
  fs.files path

/-- Two-component path join. -/
def FileSystem.join (fs : FileSystem) (p1 p2 : String) : String :=
  p1 ++ "/" ++ p2

/-- Three-component path join. -/
def FileSystem.join3 (fs : FileSystem) (p1 p2 p3 : String) : String :=
  p1 ++ "/" ++ p2 ++ "/" ++ p3

/-- Path split into directory part and final component (split at the
last "/"; a path without a separator splits into an empty directory and
itself). -/
def FileSystem.split (fs : FileSystem) (path : String) : String × String :=
  let rev := path.data.reverse
  let nameRev := rev.takeWhile (fun c => c ≠ '/')
  if nameRev.length = rev.length then ("", path)
  else (String.mk ((rev.drop (nameRev.length + 1)).reverse),
    String.mk nameRev.reverse)

/-! ### Small container helpers (ordered dicts, first-match search, sorting) -/

/-- Lookup in an insertion-ordered association list (a Python dict). -/
def assocGet {α β : Type} [DecidableEq α] (l : List (α × β)) (k : α) : Option β :=
  (l.find? (fun kv => decide (kv.1 = k))).map (·.2)

/-- Key assignment in an insertion-ordered association list: overwrite in
place when present, append otherwise (Python dict assignment). -/
def assocSet {α β : Type} [DecidableEq α] (l : List (α × β)) (k : α) (v : β) :
    List (α × β) :=
  if l.any (fun kv => decide (kv.1 = k)) then
    l.map (fun kv => if kv.1 = k then (k, v) else kv)
  else l ++ [(k, v)]

/-- Key deletion in an insertion-ordered association list. -/
def assocErase {α β : Type} [DecidableEq α] (l : List (α × β)) (k : α) :
    List (α × β) :=
  l.filter (fun kv => decide (kv.1 ≠ k))

/-- First non-`none` result of `f` along `l`: the value produced by a
Python search loop that breaks at its first hit. -/
def firstSome {α β : Type} (l : List α) (f : α → Option β) : Option β :=
  match l with
  | [] => none
  | x :: xs =>
    match f x with
    | some y => some y
    | none => firstSome xs f

/-- Insert into a list sorted by the strict comparison `ltb`. -/
def insertSorted {α : Type} (ltb : α → α → Bool) (x : α) : List α → List α
  | [] => [x]
  | y :: ys => if ltb x y then x :: y :: ys else y :: insertSorted ltb x ys

/-- Sort by the strict comparison `ltb` (Python `sorted`). -/
def sortWith {α : Type} (ltb : α → α → Bool) (l : List α) : List α :=
  l.foldr (insertSorted ltb) []

/-! ### Locations and the NCS lookup -/

/-- Embeds `ncs_lookup.Location`: a resolved file location (frozen dataclass). -/
structure Location where
  path : String
  file_type : FileType
  partition : Option Partition
deriving DecidableEq, Repr

/-- Embeds `ncs_lookup.TagLocations`: the locations of one tag per partition
(frozen dataclass); the mapping is `none` or an insertion-ordered
dictionary. -/
structure TagLocations where
  tag : SensorTag
  locations : Option (List (Partition × Location))
deriving DecidableEq, Repr

/-- Embeds `TagLocations.available`. -/
def TagLocations.available (tl : TagLocations) : Bool := tl.locations.isSome

/-- Embeds `TagLocations.partitions`: the sorted partition keys, empty when the
mapping is `none`. -/
def TagLocations.partitions (tl : TagLocations) : List Partition :=
  match tl.locations with
  | none => []
  | some locations => sortWith Partition.lt (locations.map (·.1))

/-- Embeds `TagLocations.get_location` (on a partition key; the source also
coerces a bare int to a `YearPartition` first). -/
def TagLocations.get_location (tl : TagLocations) (partition : Partition) :
    Option Location :=
  match tl.locations with
  | none => none
  | some locations => assocGet locations partition

/-- The iteration order of `TagLocations`: (tag, partition, location) by
ascending partition. -/
def TagLocations.iterList (tl : TagLocations) :
    List (SensorTag × Partition × Location) :=
  match tl.locations with
  | none => []
  | some locations =>
    (sortWith Partition.lt (locations.map (·.1))).filterMap
      (fun partition => (assocGet locations partition).map
        (fun location => (tl.tag, partition, location)))

/-- The three built-in `NcsFileType` implementations, in the order of the
`ncs_file_types` registry: monthly parquet (key "parquet"), yearly
parquet (key "yearly_parquet"), and CSV (key "csv"). -/
inductive NcsFileType where
  | parquet
  | yearly_parquet
  | csv
deriving DecidableEq, Repr

/-- The `file_type` property of each probe. -/
def NcsFileType.file_type : NcsFileType → FileType
  | .parquet => .parquetFile
  | .yearly_parquet => .parquetFile
  | .csv => .csvFile

/-- Embeds `check_partition`: whether the partition is an instance of the
probe's partition type (`MonthPartition` for monthly parquet,
`YearPartition` for the other two). -/
def NcsFileType.check_partition : NcsFileType → Partition → Bool
  | .parquet, .month _ _ => true
  | .parquet, .year _ => false
  | .yearly_parquet, .year _ => true
  | .yearly_parquet, .month _ _ => false
  | .csv, .year _ => true
  | .csv, .month _ _ => false

/-- The Python format specifier 02d applied to the month number. -/
def fmt02d (n : Int) : String :=
  if 0 ≤ n ∧ n < 10 then "0" ++ toString n else toString n

/-- Embeds `NcsFileType.paths`: the candidate relative path of each partition
(the source raises `NotImplementedError` for a partition of the wrong
variant; `files_lookup` guards every call with `check_partition`, so
mismatching partitions are filtered out here). -/
def NcsFileType.paths (ft : NcsFileType) (fs : FileSystem) (tag_name : String)
    (partitions : List Partition) : List (Partition × String) :=
  match ft with
  | .parquet => partitions.filterMap (fun p =>
      match p with
      | .month y m => some (p, fs.join3 "parquet" (toString y)
          (tag_name ++ "_" ++ toString y ++ fmt02d m ++
            FileType.parquetFile.file_extension))
      | .year _ => none)
  | .yearly_parquet => partitions.filterMap (fun p =>
      match p with
      | .year y => some (p, fs.join "parquet"
          (tag_name ++ "_" ++ toString y ++ FileType.parquetFile.file_extension))
      | .month _ _ => none)
  | .csv => partitions.filterMap (fun p =>
      match p with
      | .year y => some (p, tag_name ++ "_" ++ toString y ++
          FileType.csvFile.file_extension)
      | .month _ _ => none)

/-- The `ncs_file_types` registry mapping type names to probes. -/
def ncs_file_types_registry : List (String × NcsFileType) :=
  [("parquet", .parquet), ("yearly_parquet", .yearly_parquet), ("csv", .csv)]

/-- Embeds `DEFAULT_TYPE_NAMES`. -/
def DEFAULT_TYPE_NAMES : List String := ["parquet", "yearly_parquet", "csv"]

/-- The loop of `load_ncs_file_types`: resolve each name in order,
raising `ConfigException` at the first unknown name. -/
def load_ncs_file_types_loop : List String → Except PyError (List NcsFileType)
  | [] => .ok []
  | type_name :: rest =>
    match assocGet ncs_file_types_registry type_name with
    | none => .error (.configException ("Can not find file type " ++ type_name))
    | some ft => (load_ncs_file_types_loop rest).map (fun l => ft :: l)

/-- Embeds `ncs_file_type.load_ncs_file_types`. -/
def load_ncs_file_types (type_names : Option (List String)) :
    Except PyError (List NcsFileType) :=
  load_ncs_file_types_loop (type_names.getD DEFAULT_TYPE_NAMES)

/-- Modelled from the spec: `constants.DEFAULT_MAX_FILE_SIZE` (module not
in the sources); the spec only requires a configurable maximum byte size
with some default, so the default is an arbitrary fixed bound here. -/
def DEFAULT_MAX_FILE_SIZE : Option Int := some 1000000000

/-- Modelled from the spec: `ncs_contants.NCS_READER_NAME` (module not in
the sources), the reader name that asset catalog entries must carry for
this resolver. -/
def NCS_READER_NAME : String := "ncs_reader"

/-- Embeds `ncs_lookup.NcsLookup` (after `__init__` has applied the storage-name
default). -/
structure NcsLookup where
  storage : FileSystem
  ncs_file_types : List NcsFileType
  storage_name : String
  max_file_size : Option Int

/-- Embeds `NcsLookup.__init__`: defaults the storage name to the storage's own
name. -/
def NcsLookup.init (storage : FileSystem) (ncs_file_types : List NcsFileType)
    (storage_name : Option String) (max_file_size : Option Int) : NcsLookup :=
  ⟨storage, ncs_file_types, storage_name.getD storage.name, max_file_size⟩

/-- Embeds `NcsLookup._validate_file`: with a configured maximum size, stat the
file and reject it when its size exceeds the maximum (the stat cannot hit
not-found here because every caller has just checked existence; that
impossible branch accepts). -/
def NcsLookup.validate_file (lookup : NcsLookup) (full_path : String) : Bool :=
  match lookup.max_file_size with
  | none => true
  | some max_size =>
    match lookup.storage.info full_path with
    | some file_info => decide (¬(file_info.size > max_size))
    | none => true

/-- The per-partition search of `files_lookup`: try each probe in
priority order; for a probe accepting the partition variant, try its
candidate paths and take the first existing, size-compliant one; stop at
the first hit (the `found` flag with two breaks). -/
def NcsLookup.findLocation (lookup : NcsLookup) (tag_dir tag_name : String)
    (partition : Partition) : Option Location :=
  firstSome lookup.ncs_file_types (fun ncs_file_type =>
    if ncs_file_type.check_partition partition then
      firstSome (ncs_file_type.paths lookup.storage tag_name [partition])
        (fun pp =>
          let full_path := lookup.storage.join tag_dir pp.2
          if lookup.storage.pathExists full_path && lookup.validate_file full_path then
            some ⟨full_path, ncs_file_type.file_type, some pp.1⟩
          else none)
    else none)

/-- The partition loop of `files_lookup`: resolve each requested
partition through `findLocation` and record the hits in the `locations`
dict. -/
def NcsLookup.filesLookupLocations (lookup : NcsLookup)
    (tag_dir tag_name : String) :
    List Partition → List (Partition × Location) → List (Partition × Location)
  | [], locations => locations
  | partition :: rest, locations =>
    match lookup.findLocation tag_dir tag_name partition with
    | some location =>
      lookup.filesLookupLocations tag_dir tag_name rest
        (assocSet locations partition location)
    | none => lookup.filesLookupLocations tag_dir tag_name rest locations

/-- Embeds `NcsLookup.files_lookup`: resolve every requested partition in the
tag's directory and collect the hits; the result carries `none` instead
of an empty mapping (the source builds `locations` as a dict and returns
`locations if locations else None`). -/
def NcsLookup.files_lookup (lookup : NcsLookup) (tag_dir : String)
    (tag : SensorTag) (partitions : List Partition) : TagLocations :=
  let tag_name := quote_tag_name tag.name
  let locations := lookup.filesLookupLocations tag_dir tag_name partitions []
  ⟨tag, if locations.isEmpty then none else some locations⟩

/-- Embeds `NcsLookup.tag_dirs_lookup`: scan the base directory listing once;
every directory entry whose final path component matches the
percent-encoded name of a pending tag is yielded with its path (and the
tag removed from the pending dict); the tags left pending are yielded
with `none`. -/
def NcsLookup.tag_dirs_lookup (lookup : NcsLookup) (base_dir : String)
    (tag_list : List SensorTag) : List (SensorTag × Option String) :=
  let tags := tag_list.foldl
    (fun acc tag => assocSet acc (quote_tag_name tag.name) tag) []
  let scanned := (lookup.storage.lsEntries base_dir).foldl
    (fun (st : List (SensorTag × Option String) × List (String × SensorTag)) entry =>
      match entry.2 with
      | some file_info =>
        if file_info.isdir then
          let file_name := (lookup.storage.split entry.1).2
          match assocGet st.2 file_name with
          | some tag => (st.1 ++ [(tag, some entry.1)], assocErase st.2 file_name)
          | none => st
        else st
      | none => st)
    ([], tags)
  scanned.1 ++ scanned.2.map (fun kv => (kv.2, none))

/-- Modelled from the spec: `assets_config.PathSpec` (module not in the
sources); an asset path entry holds a reader name, a base path and a
relative path. -/
structure PathSpec where
  reader : String
  base_path : String
  relative_path : String
deriving DecidableEq, Repr

/-- Modelled from the spec: the full path of a `PathSpec` under a
storage, its base path extended by its relative path. -/
def PathSpec.full_path (ps : PathSpec) (fs : FileSystem) : String :=
  if ps.relative_path.isEmpty then ps.base_path
  else fs.join ps.base_path ps.relative_path

/-- Modelled from the spec: `assets_config.AssetsConfig` (module not in
the sources); the asset catalog resolves a storage name and an asset name
to an optional `PathSpec`. -/
structure AssetsConfig where
  get_path : String → String → Option PathSpec

/-- The grouping loop of `assets_config_tags_lookup`: an ordered dict
from asset to its tags, raising `ValueError` on a tag with a falsy
asset. -/
def groupByAssetLoop : List SensorTag → List (String × List SensorTag) →
    Except PyError (List (String × List SensorTag))
  | [], acc => .ok acc
  | tag :: rest, acc =>
    if tag.assetFalsy then
      .error (.valueError (tag.name ++ " tag has empty asset"))
    else
      let asset := tag.asset.getD ""
      match assocGet acc asset with
      | some l => groupByAssetLoop rest (assocSet acc asset (l ++ [tag]))
      | none => groupByAssetLoop rest (acc ++ [(asset, [tag])])

/-- The asset-resolution loop of `assets_config_tags_lookup`: look every
grouped asset up in the catalog, raising on a missing entry or on an
entry bound to a different reader name. -/
def resolveAssetsLoop (storage_name : String) (asset_config : AssetsConfig) :
    List (String × List SensorTag) →
    Except PyError (List (PathSpec × List SensorTag))
  | [] => .ok []
  | (asset, asset_tags) :: rest =>
    match asset_config.get_path storage_name asset with
    | none => .error (.valueError
        ("Unable to find asset " ++ asset ++ " in storage " ++ storage_name))
    | some path_spec =>
      if path_spec.reader ≠ NCS_READER_NAME then
        .error (.valueError ("Assets reader name should be equal " ++
          NCS_READER_NAME ++ " and not " ++ path_spec.reader))
      else
        (resolveAssetsLoop storage_name asset_config rest).map
          (fun l => (path_spec, asset_tags) :: l)

/-- Embeds `NcsLookup.assets_config_tags_lookup`: with no (or an empty) base
directory override, group the tags by asset and resolve each asset once
through the catalog; otherwise use the override as a single path spec;
then look the tag directories up under each resolved root. -/
def NcsLookup.assets_config_tags_lookup (lookup : NcsLookup)
    (asset_config : AssetsConfig) (tags : List SensorTag)
    (base_dir : Option String) :
    Except PyError (List (SensorTag × Option String)) := do
  let asset_path_specs ←
    if (base_dir.getD "").isEmpty then do
      let grouped ← groupByAssetLoop tags []
      resolveAssetsLoop lookup.storage_name asset_config grouped
    else
      .ok [(⟨NCS_READER_NAME, base_dir.getD "", ""⟩, tags)]
  .ok (asset_path_specs.flatMap (fun pst =>
    lookup.tag_dirs_lookup (pst.1.full_path lookup.storage) pst.2))

/-! ### The NCS reader -/

/-- The default of the `remove_status_codes` argument. -/
def DEFAULT_REMOVE_STATUS_CODES : List Int := [0, 64, 60, 8, 24, 3, 32768]

/-- The `partition_by` constructor argument: a string or an enum
member. -/
inductive PartitionByArg where
  | str (value : String)
  | enum (value : PartitionBy)
deriving DecidableEq, Repr

/-- Modelled from the spec: `PartitionBy.find_by_name` is called by
`NcsReader.prepare_partition_by` but its definition is not in the
sources; per the spec the partition-by setting selects a supported
granularity by its enum value ("year" or "month") and any other string is
a bad partition-by value, answered with `None` here so that the caller
can raise. -/
def PartitionBy.find_by_name (name : String) : Option PartitionBy :=
  if name = PartitionBy.year.value then some PartitionBy.year
  else if name = PartitionBy.month.value then some PartitionBy.month
  else none

/-- Embeds `NcsReader.prepare_partition_by`: resolve a string through
`find_by_name`, raising `ConfigException` when it names no granularity;
pass an enum member through. -/
def NcsReader.prepare_partition_by (partition_by : PartitionByArg) :
    Except PyError PartitionBy :=
  match partition_by with
  | .str s =>
    match PartitionBy.find_by_name s with
    | none => .error (.configException ("Wrong partition_by argument " ++ s))
    | some result => .ok result
  | .enum p => .ok p

/-- Embeds `NcsReader.create_ncs_lookup`: build the internal lookup from the
reader's storage, lookup-for names and storage name. -/
def create_ncs_lookup (storage : FileSystem) (lookup_for : List String)
    (storage_name : String) (max_file_size : Option Int) :
    Except PyError NcsLookup := do
  let ncs_file_types ← load_ncs_file_types (some lookup_for)
  .ok ⟨storage, ncs_file_types, storage_name, max_file_size⟩

/-- Embeds `ncs_reader.NcsReader` (after `__init__` has applied all defaults). -/
structure NcsReader where
  storage : FileSystem
  assets_config : AssetsConfig
  threads : Option Int
  remove_status_codes : List Int
  dl_base_path : Option String
  lookup_for : List String
  storage_name : String
  ncs_lookup : NcsLookup
  partition_by : PartitionBy

/-- Embeds `NcsReader.__init__`.  Defaults `lookup_for` and `storage_name`; with
no caller-supplied lookup builds one internally, while any caller-supplied
value of the declared `Optional[NcsLookup]` type hits the
`elif isinstance(ncs_lookup, NcsLookup)` branch of the source and raises
`ConfigException`; finally validates `partition_by`. -/
def NcsReader.init (storage : FileSystem) (assets_config : AssetsConfig)
    (threads : Option Int) (remove_status_codes : List Int)
    (dl_base_path : Option String) (lookup_for : Option (List String))
    (storage_name : Option String) (ncs_lookup : Option NcsLookup)
    (max_file_size : Option Int) (partition_by : PartitionByArg) :
    Except PyError NcsReader := do
  let lookup_for := lookup_for.getD DEFAULT_TYPE_NAMES
  let storage_name := storage_name.getD storage.name
  let ncs_lookup ←
    match ncs_lookup with
    | none => create_ncs_lookup storage lookup_for storage_name max_file_size
    | some _ => .error (.configException "ncs_lookup should be instance of NcsLookup")
  let partition_by ← NcsReader.prepare_partition_by partition_by
  .ok ⟨storage, assets_config, threads, remove_status_codes, dl_base_path,
    lookup_for, storage_name, ncs_lookup, partition_by⟩

/-- A series as read by the NCS reader: an optional name and (datetime,
value) samples with `none` values for NaN cells. -/
structure RSeries where
  name : Option String
  points : List (PyDateTime × Option ℚ)
deriving DecidableEq, Repr

/-- The per-file frame processing inside `read_tag_locations`: rename the
value column to the tag name (a no-op on this row representation), drop
the rows whose status code is excluded, and sort by the datetime
index. -/
def processPartitionDf (remove_status_codes : List Int) (df : TsDataFrame) :
    TsDataFrame :=
  ⟨sortWith (fun r1 r2 => dtLt r1.1 r2.1)
    (df.rows.filter (fun r => decide (r.2.2 ∉ remove_status_codes)))⟩

/-- The partition loop of `read_tag_locations`: stat each location (a
not-found stat skips the partition), return an empty unnamed series early
on a dry run, otherwise read and process the file (a not-found open also
skips) and accumulate the frames. -/
def readLocationsLoop (reader : NcsReader) (dry_run : Bool) :
    List (SensorTag × Partition × Location) →
    List (List (PyDateTime × Option ℚ × Int)) →
    Sum RSeries (List (List (PyDateTime × Option ℚ × Int)))
  | [], all_partitions => .inr all_partitions
  | (_, _, location) :: rest, all_partitions =>
    match reader.storage.info location.path with
    | none => readLocationsLoop reader dry_run rest all_partitions
    | some _ =>
      if dry_run then .inl ⟨none, []⟩
      else
        match reader.storage.readDf location.path location.file_type with
        | none => readLocationsLoop reader dry_run rest all_partitions
        | some df => readLocationsLoop reader dry_run rest
            (all_partitions ++ [(processPartitionDf reader.remove_status_codes df).rows])

/-- Embeds `index.duplicated().any()`: some datetime occurs at least twice. -/
def hasDuplicateIndex {α : Type} : List (PyDateTime × α) → Bool
  | [] => false
  | r :: rest => rest.any (fun r2 => decide (r2.1 = r.1)) || hasDuplicateIndex rest

/-- The filter by the negation of `index.duplicated(keep="last")`: a row
is kept exactly when no later row carries the same datetime. -/
def keepLastOccurrence {α : Type} : List (PyDateTime × α) → List (PyDateTime × α)
  | [] => []
  | r :: rest =>
    (if rest.any (fun r2 => decide (r2.1 = r.1)) then [] else [r]) ++
      keepLastOccurrence rest

/-- The rows of the concatenation of all processed partition frames of
one tag (the loop run with `dry_run = False` never takes the early
return). -/
def NcsReader.combinedPartitions (reader : NcsReader)
    (tag_locations : TagLocations) : List (PyDateTime × Option ℚ × Int) :=
  match readLocationsLoop reader false tag_locations.iterList [] with
  | .inl _ => []
  | .inr all_partitions => all_partitions.foldr (· ++ ·) []

/-- Embeds `NcsReader.read_tag_locations`: read all partitions of one tag; when
no partition produced a frame, `pd.concat` raises and the caught
exception yields an empty named series; otherwise concatenate, drop all
but the last occurrence of each duplicated timestamp, and project the
value column named after the tag. -/
def NcsReader.read_tag_locations (reader : NcsReader)
    (tag_locations : TagLocations) (dry_run : Bool) : RSeries :=
  let tag := tag_locations.tag
  match readLocationsLoop reader dry_run tag_locations.iterList [] with
  | .inl early => early
  | .inr all_partitions =>
    match all_partitions with
    | [] => ⟨some tag.name, []⟩
    | _ =>
      let combined := all_partitions.foldr (· ++ ·) []
      let combined :=
        if hasDuplicateIndex combined then keepLastOccurrence combined
        else combined
      ⟨some tag.name, combined.map (fun r => (r.1, r.2.1))⟩

/-- Embeds `NcsReader._load_series_mapper`: an unnamed empty series for a tag
whose directory was not found, otherwise the series read from the files
that `files_lookup` resolves in the tag's directory. -/
def NcsReader.load_series_mapper (reader : NcsReader)
    (tag_dirs : SensorTag × Option String) (partitions : List Partition)
    (dry_run : Bool) : RSeries :=
  match tag_dirs.2 with
  | none => ⟨none, []⟩
  | some tag_dir =>
    reader.read_tag_locations
      (reader.ncs_lookup.files_lookup tag_dir tag_dirs.1 partitions) dry_run

/-- Embeds `NcsReader.load_series`: validate the date order, enumerate the
partitions, resolve the tag directories, fetch every tag (the worker pool
keeps input order), and filter each fetched series to the samples with
`train_start_date <= t < train_end_date`. -/
def NcsReader.load_series (reader : NcsReader)
    (train_start_date train_end_date : PyDateTime) (tag_list : List SensorTag)
    (dry_run : Bool) : Except PyError (List RSeries) := do
  if dtLt train_end_date train_start_date then
    .error (.valueError "NCS reader called with train_end_date before train_start_date")
  else do
    let partitions ← split_by_partitions reader.partition_by
      train_start_date train_end_date
    let tag_dirs ← reader.ncs_lookup.assets_config_tags_lookup
      reader.assets_config tag_list reader.dl_base_path
    .ok (tag_dirs.map (fun td =>
      let tag_frame_all_partitions := reader.load_series_mapper td partitions dry_run
      ⟨tag_frame_all_partitions.name,
        tag_frame_all_partitions.points.filter (fun p =>
          dtLe train_start_date p.1 && dtLt p.1 train_end_date)⟩))

/-! ### The join/resample engine (`utils.py`)

Series timestamps are numeric instants here (the resample arithmetic
works on the time line, not on the calendar); `resolution` and
`interpolation_limit` are durations in the same unit.  A `none` value is
a NaN cell. -/

/-- A `pandas` series with a time index: an optional name and
(timestamp, value) samples in index order. -/
structure PySeries where
  name : Option String
  points : List (Int × Option ℚ)
deriving DecidableEq, Repr

/-- The `aggregation_methods` argument: one named method (a string or a
callable), or a list of named methods.  Each method denotes the total
bucket-aggregation function that `pandas` applies to the bucket's values
(`none` cells included; the function answers `none` for a NaN result). -/
inductive AggMethods where
  | single (name : String) (fn : List (Option ℚ) → Option ℚ)
  | multi (methods : List (String × (List (Option ℚ) → Option ℚ)))

/-- The `pandas` mean aggregation: NaN cells are skipped; an empty or
all-NaN bucket aggregates to NaN. -/
def pandasMean (vals : List (Option ℚ)) : Option ℚ :=
  let xs := vals.filterMap id
  if xs.isEmpty then none else some (xs.sum / (xs.length : ℚ))

/-- A resampled frame: the series name, the aggregation-method column
names when several methods were given (a two-level column index) or
`none` for the flat single-method shape, and the (left bucket label, one
value per column) rows. -/
structure PyFrame where
  seriesName : Option String
  aggNames : Option (List String)
  rows : List (Int × List (Option ℚ))
deriving DecidableEq, Repr

/-- The values falling into resample bucket `k` (the bucket of width
`resolution` with left edge `k * resolution`). -/
def bucketValues (points : List (Int × Option ℚ)) (resolution k : Int) :
    List (Option ℚ) :=
  (points.filter (fun p => decide (Int.fdiv p.1 resolution = k))).map (·.2)

/-- Embeds `series.resample(resolution, label="left").agg(aggregation_methods)`:
one row per bucket from the bucket of the first timestamp to the bucket
of the last, labelled by the left bucket edge; empty buckets aggregate
over no values.  A single method keeps the flat column shape; several
methods produce the two-level (series name, method name) columns. -/
def resampleAgg (series : PySeries) (resolution : Int) (agg : AggMethods) :
    PyFrame :=
  let times := series.points.map (·.1)
  let k0 := Int.fdiv (times.headD 0) resolution
  let k1 := Int.fdiv (times.getLastD 0) resolution
  let buckets := intRange k0 k1
  match agg with
  | .single _ fn =>
    ⟨series.name, none, buckets.map (fun k =>
      (k * resolution, [fn (bucketValues series.points resolution k)]))⟩
  | .multi methods =>
    ⟨series.name, some (methods.map (·.1)), buckets.map (fun k =>
      (k * resolution, methods.map (fun m =>
        m.2 (bucketValues series.points resolution k))))⟩

/-- The position and value of the last non-NaN cell among the first `i`
cells of a column. -/
def lastValidBefore (vals : List (Option ℚ)) (i : Nat) : Option (Nat × ℚ) :=
  ((vals.take i).enum.filterMap (fun p => p.2.map (fun v => (p.1, v)))).getLast?

/-- The position and value of the first non-NaN cell at or after position
`i` of a column. -/
def firstValidFrom (vals : List (Option ℚ)) (i : Nat) : Option (Nat × ℚ) :=
  ((vals.enum.drop i).filterMap (fun p => p.2.map (fun v => (p.1, v)))).head?

/-- Embeds `interpolate(limit=limit)` on one column (`pandas` linear
interpolation, forward direction): a NaN between two valid cells becomes
the linear interpolant over positions, a NaN after the last valid cell
repeats that cell, a NaN before the first valid cell stays NaN; a NaN
farther than `limit` positions after the preceding valid cell stays
NaN. -/
def interpCol (limit : Option Int) (vals : List (Option ℚ)) :
    List (Option ℚ) :=
  vals.enum.map (fun p =>
    match p.2 with
    | some v => some v
    | none =>
      match lastValidBefore vals p.1 with
      | none => none
      | some jv =>
        let withinLimit :=
          match limit with
          | none => true
          | some l => decide ((p.1 : Int) - (jv.1 : Int) ≤ l)
        if withinLimit then
          match firstValidFrom vals p.1 with
          | some kv => some (jv.2 + (kv.2 - jv.2) *
              (((p.1 : ℚ) - (jv.1 : ℚ)) / ((kv.1 : ℚ) - (jv.1 : ℚ))))
          | none => some jv.2
        else none)

/-- Embeds `fillna(method="ffill", limit=limit)` on one column: a NaN repeats
the preceding valid cell when it is at most `limit` positions behind; a
NaN before the first valid cell stays NaN. -/
def ffillCol (limit : Option Int) (vals : List (Option ℚ)) :
    List (Option ℚ) :=
  vals.enum.map (fun p =>
    match p.2 with
    | some v => some v
    | none =>
      match lastValidBefore vals p.1 with
      | none => none
      | some jv =>
        let withinLimit :=
          match limit with
          | none => true
          | some l => decide ((p.1 : Int) - (jv.1 : Int) ≤ l)
        if withinLimit then some jv.2 else none)

/-- Apply a column transformation to every column of a frame. -/
def mapFrameCols (f : List (Option ℚ) → List (Option ℚ)) (fr : PyFrame) :
    PyFrame :=
  ⟨fr.seriesName, fr.aggNames,
    (fr.rows.map (·.1)).zip (((fr.rows.map (·.2)).transpose.map f).transpose)⟩

/-- Embeds `dropna()` on a frame: drop every row holding a NaN cell. -/
def dropnaFrame (fr : PyFrame) : PyFrame :=
  ⟨fr.seriesName, fr.aggNames, fr.rows.filter (fun r => r.2.all Option.isSome)⟩

/-- Render an optional series name the way a Python f-string does. -/
def optNameStr : Option String → String
  | some n => n
  | none => "None"

/-- First index entry of a series (callers guard non-emptiness; the
default is never read). -/
def PySeries.firstTime (s : PySeries) : Int := (s.points.map (·.1)).headD 0

/-- Last index entry of a series (callers guard non-emptiness). -/
def PySeries.lastTime (s : PySeries) : Int := (s.points.map (·.1)).getLastD 0

/-- The start-edge step of `_resample`: prepend one NaN sample at the
resampling start point when the series starts after it; raise
`RuntimeError` when the series starts strictly before it. -/
def padStart (series : PySeries) (resampling_startpoint : Int) :
    Except PyError PySeries :=
  if series.firstTime > resampling_startpoint then
    .ok ⟨series.name, (resampling_startpoint, none) :: series.points⟩
  else if series.firstTime < resampling_startpoint then
    .error (.runtimeError ("Error - for " ++ optNameStr series.name ++
      ", first timestamp " ++ toString series.firstTime ++
      " is before the resampling start point " ++
      toString resampling_startpoint))
  else .ok series

/-- The end-edge step of `_resample`: append one NaN sample at the
resampling end point when the series ends before it; raise
`RuntimeError` when the series ends strictly after it. -/
def padEnd (series : PySeries) (resampling_endpoint : Int) :
    Except PyError PySeries :=
  if series.lastTime < resampling_endpoint then
    .ok ⟨series.name, series.points ++ [(resampling_endpoint, none)]⟩
  else if series.lastTime > resampling_endpoint then
    .error (.runtimeError ("Error - for " ++ optNameStr series.name ++
      ", last timestamp " ++ toString series.lastTime ++
      " is later than the resampling end point " ++
      toString resampling_endpoint))
  else .ok series

/-- The bounded-fill limit of `_resample`:
`int(Timedelta(interpolation_limit) / Timedelta(resolution))` (`int`
truncates toward zero), raising `ValueError` when the ratio is not
positive; no limit when `interpolation_limit` is `None`. -/
def resampleLimitValue (interpolation_limit : Option Int) (resolution : Int) :
    Except PyError (Option Int) :=
  match interpolation_limit with
  | none => .ok none
  | some il =>
    let limit := Int.tdiv il resolution
    if limit ≤ 0 then
      .error (.valueError "Interpolation limit must be larger than given resolution")
    else .ok (some limit)

/-- Embeds `utils._resample`: an empty series raises `IndexError` at its first
index access; otherwise check-and-pad both edges, resample with the
aggregation methods, validate the interpolation method, resolve the fill
limit, fill by interpolation or forward fill, and drop the remaining NaN
rows. -/
def _resample (series : PySeries)
    (resampling_startpoint resampling_endpoint resolution : Int)
    (aggregation_methods : AggMethods) (interpolation_method : String)
    (interpolation_limit : Option Int) : Except PyError PyFrame := do
  if series.points.isEmpty then
    .error .indexError
  else do
    let s1 ← padStart series resampling_startpoint
    let s2 ← padEnd s1 resampling_endpoint
    let resampled := resampleAgg s2 resolution aggregation_methods
    if interpolation_method ≠ "linear_interpolation" ∧ interpolation_method ≠ "ffill" then
      .error (.valueError "Interpolation method should be either linear_interpolation of ffill")
    else do
      let limit ← resampleLimitValue interpolation_limit resolution
      if interpolation_method = "linear_interpolation" then
        .ok (dropnaFrame (mapFrameCols (interpCol limit) resampled))
      else
        .ok (dropnaFrame (mapFrameCols (ffillCol limit) resampled))

/-- Per-series metadata recorded by `join_timeseries`: the original
length, and the resampled length for the series that resampled. -/
structure SeriesMetadata where
  name : Option String
  original_length : Nat
  resampled_length : Option Nat
deriving DecidableEq, Repr

/-- The metadata of a join: the per-series entries and the aggregate
joined/dropped row counts. -/
structure JoinMetadata where
  series : List SeriesMetadata
  joined_length : Nat
  dropped_na_length : Nat
deriving DecidableEq, Repr

/-- A column label of the joined table: flat (single aggregation) or the
two-level (series, method) pair. -/
inductive ColumnLabel where
  | flat (name : Option String)
  | pair (series : Option String) (method : String)
deriving DecidableEq, Repr

/-- The joined table: column labels and (timestamp, cells) rows. -/
structure PyTable where
  columns : List ColumnLabel
  rows : List (Int × List (Option ℚ))
deriving DecidableEq, Repr

/-- The column labels a resampled frame contributes to the join. -/
def PyFrame.columnLabels (fr : PyFrame) : List ColumnLabel :=
  match fr.aggNames with
  | none => [.flat fr.seriesName]
  | some names => names.map (.pair fr.seriesName)

/-- The cells of a frame at one timestamp (present for every timestamp of
the inner-joined index). -/
def frameRowAt (fr : PyFrame) (t : Int) : List (Option ℚ) :=
  match fr.rows.find? (fun r => decide (r.1 = t)) with
  | some r => r.2
  | none => []

/-- Embeds `pd.concat(frames, axis=1, join="inner")`: keep the timestamps
present in every frame (in the first frame's index order) and concatenate
the frames' cells at each kept timestamp. -/
def concatInner (frames : List PyFrame) : PyTable :=
  match frames with
  | [] => ⟨[], []⟩
  | f0 :: _ =>
    let commonTimes := (f0.rows.map (·.1)).filter (fun t =>
      frames.all (fun fr => fr.rows.any (fun r => decide (r.1 = t))))
    ⟨frames.flatMap PyFrame.columnLabels,
      commonTimes.map (fun t => (t, frames.flatMap (fun fr => frameRowAt fr t)))⟩

/-- Embeds `dropna()` on the joined table: drop every row holding a NaN cell. -/
def dropnaTable (tbl : PyTable) : PyTable :=
  ⟨tbl.columns, tbl.rows.filter (fun r => r.2.all Option.isSome)⟩

/-- The series loop of `join_timeseries`: resample each series in input
order; a raised `IndexError` records the series as missing data and the
loop continues; any other raised error propagates at once. -/
def joinLoop (resampling_startpoint resampling_endpoint resolution : Int)
    (aggregation_methods : AggMethods) (interpolation_method : String)
    (interpolation_limit : Option Int) :
    List PySeries → List PyFrame → List (Option String) → List SeriesMetadata →
    Except PyError (List PyFrame × List (Option String) × List SeriesMetadata)
  | [], frames, missing, md => .ok (frames, missing, md)
  | series :: rest, frames, missing, md =>
    match _resample series resampling_startpoint resampling_endpoint resolution
        aggregation_methods interpolation_method interpolation_limit with
    | .ok resampled =>
      joinLoop resampling_startpoint resampling_endpoint resolution
        aggregation_methods interpolation_method interpolation_limit rest
        (frames ++ [resampled]) missing
        (md ++ [⟨series.name, series.points.length, some resampled.rows.length⟩])
    | .error .indexError =>
      joinLoop resampling_startpoint resampling_endpoint resolution
        aggregation_methods interpolation_method interpolation_limit rest
        frames (missing ++ [series.name])
        (md ++ [⟨series.name, series.points.length, none⟩])
    | .error e => .error e

/-- Embeds `utils.join_timeseries`: resample every series (recording the ones
whose resampling hit `IndexError`), raise `InsufficientDataError` naming
the recorded series when there are any, inner-join the resampled frames
on their time index (`pd.concat` of an empty frame list raises
`ValueError`), drop every row still holding a NaN, and report the
metadata. -/
def join_timeseries (series_iterable : List PySeries)
    (resampling_startpoint resampling_endpoint resolution : Int)
    (aggregation_methods : AggMethods) (interpolation_method : String)
    (interpolation_limit : Option Int) :
    Except PyError (PyTable × JoinMetadata) := do
  let state ← joinLoop resampling_startpoint resampling_endpoint resolution
    aggregation_methods interpolation_method interpolation_limit
    series_iterable [] [] []
  let (resampled_series, missing_data_series, metadata) := state
  if ¬missing_data_series.isEmpty then
    .error (.insufficientData missing_data_series)
  else
    match resampled_series with
    | [] => .error (.valueError "No objects to concatenate")
    | _ =>
      let joined_df := concatInner resampled_series
      let dropped_na := dropnaTable joined_df
      .ok (dropped_na, ⟨metadata, joined_df.rows.length, dropped_na.rows.length⟩)

/-- Decidable equality of `Except` results, used to evaluate the
embedding on concrete inputs. -/
instance {ε α : Type} [DecidableEq ε] [DecidableEq α] :
    DecidableEq (Except ε α) := fun x y =>
  match x, y with
  | .ok a, .ok b =>
    if h : a = b then .isTrue (by rw [h]) else .isFalse (by simp [h])
  | .error e, .error f =>
    if h : e = f then .isTrue (by rw [h]) else .isFalse (by simp [h])
  | .ok _, .error _ => .isFalse (by simp)
  | .error _, .ok _ => .isFalse (by simp)

/-! ### Concrete fixtures used by witnesses and counterexamples -/

/-- A storage modified so that one path no longer exists: the world in
which an oversize file is simply missing. -/
def removeFileFromStorage (fs : FileSystem) (path : String) : FileSystem :=
  ⟨fs.name, fun q => if q = path then none else fs.files q,
    fs.lsEntries, fs.readDf⟩

/-- The lookup over the storage with one path removed. -/
def removeFileFromLookup (lookup : NcsLookup) (path : String) : NcsLookup :=
  ⟨removeFileFromStorage lookup.storage path, lookup.ncs_file_types,
    lookup.storage_name, lookup.max_file_size⟩

/-- The default probe priority order. -/
def exAllTypes : List NcsFileType := [.parquet, .yearly_parquet, .csv]

/-- A storage with no files and no listings. -/
def exEmptyStorage : FileSystem := ⟨"storage", fun _ => none, fun _ => [], fun _ _ => none⟩

/-- A lookup over the empty storage. -/
def exLookupEmpty : NcsLookup := ⟨exEmptyStorage, exAllTypes, "storage", DEFAULT_MAX_FILE_SIZE⟩

/-- A sample sensor tag. -/
def exTag : SensorTag := ⟨"tag1", some "asset1"⟩

/-- The path of the yearly parquet candidate probed inside directory
"dir" for tag "tag1" and partition 2020. -/
def exOversizePath : String := "dir/parquet/tag1_2020.parquet"

/-- A storage holding one file twice as large as the 10^9-byte bound. -/
def exOversizeStorage : FileSystem :=
  ⟨"storage", fun q => if q = exOversizePath then some ⟨false, 2000000000⟩ else none,
    fun _ => [], fun _ _ => none⟩

/-- A lookup over the oversize-file storage with a 10^9-byte bound. -/
def exLookupOversize : NcsLookup :=
  ⟨exOversizeStorage, exAllTypes, "storage", some 1000000000⟩

/-- The duplicated timestamp of the duplicate-timestamps fixture. -/
def exDupT : PyDateTime := ⟨2020, 1, 1⟩

/-- A storage with two partition files of one tag whose rows share one
timestamp. -/
def exDupStorage : FileSystem :=
  ⟨"storage",
    fun q => if q = "f1" then some ⟨false, 10⟩
      else if q = "f2" then some ⟨false, 10⟩ else none,
    fun _ => [],
    fun q _ =>
      if q = "f1" then some ⟨[(⟨2020, 1, 1⟩, some 1, 1)]⟩
      else if q = "f2" then some ⟨[(⟨2020, 1, 1⟩, some 2, 1)]⟩ else none⟩

/-- A lookup over the duplicate-timestamps storage. -/
def exDupLookup : NcsLookup := ⟨exDupStorage, exAllTypes, "storage", none⟩

/-- An asset catalog with no entries. -/
def exEmptyAssets : AssetsConfig := ⟨fun _ _ => none⟩

/-- A reader over the duplicate-timestamps storage (status code 0
excluded). -/
def exDupReader : NcsReader :=
  ⟨exDupStorage, exEmptyAssets, some 1, [0], none, DEFAULT_TYPE_NAMES,
    "storage", exDupLookup, .month⟩

/-- Locations of the fixture tag over two year partitions. -/
def exDupTagLocations : TagLocations :=
  ⟨exTag, some [(Partition.year 2020, ⟨"f1", .parquetFile, none⟩),
    (Partition.year 2021, ⟨"f2", .parquetFile, none⟩)]⟩

/-- A storage with one tag directory under "base" holding one monthly
parquet file; one row falls inside the train window, one before it and
one after it. -/
def exLSStorage : FileSystem :=
  ⟨"storage",
    fun q => if q = "base/tag1/parquet/2020/tag1_202001.parquet" then
        some ⟨false, 10⟩ else none,
    fun q => if q = "base" then [("base/tag1", some ⟨true, 0⟩)] else [],
    fun q _ => if q = "base/tag1/parquet/2020/tag1_202001.parquet" then
        some ⟨[(⟨2020, 1, 0⟩, some 1, 1), (⟨2020, 1, 5⟩, some 2, 1),
          (⟨2020, 2, 0⟩, some 3, 1)]⟩
      else none⟩

/-- A lookup over the load-series storage. -/
def exLSLookup : NcsLookup := ⟨exLSStorage, exAllTypes, "storage", none⟩

/-- A reader over the load-series storage with base-path override
"base". -/
def exLSReader : NcsReader :=
  ⟨exLSStorage, exEmptyAssets, some 1, [0], some "base", DEFAULT_TYPE_NAMES,
    "storage", exLSLookup, .month⟩

/-- The default aggregation configuration: the single method "mean". -/
def exMeanAgg : AggMethods := .single "mean" pandasMean

/-- A two-sample series inside the grid `[0, 10]`. -/
def exSeriesIn : PySeries := ⟨some "a", [(0, some 1), (10, some 2)]⟩

/-- A series starting before the grid start `3`. -/
def exSeriesEarly : PySeries := ⟨some "w", [(2, some 1), (4, some 2)]⟩

/-- A series covering the grid `[0, 10]` with only NaN samples: it
resamples to zero rows (every bucket aggregates to NaN and the final
`dropna` removes them all). -/
def exSeriesAllNaN : PySeries := ⟨some "b", [(0, none), (10, none)]⟩

/-- An entirely empty series. -/
def exSeriesEmpty : PySeries := ⟨some "c", []⟩

/-! ## Lemmas -/

section Proofs

/- Batteries marks the rational-number arithmetic irreducible; witnesses
evaluate the embedding on concrete rational data, so restore reducibility
locally for this proof section. -/
attribute [local semireducible] Rat.mul Rat.add Rat.inv Rat.sub

lemma mem_intRangeAux {x a : Int} {n : Nat} :
    x ∈ intRangeAux a n ↔ a ≤ x ∧ x < a + n := by
  induction n generalizing a with
  | zero => simp [intRangeAux]
  | succ k ih =>
    simp only [intRangeAux, List.mem_cons, ih]
    constructor
    · rintro (rfl | ⟨h1, h2⟩) <;> omega
    · rintro ⟨h1, h2⟩
      by_cases hx : x = a
      · exact Or.inl hx
      · exact Or.inr ⟨by omega, by omega⟩

lemma mem_intRange {x a b : Int} : x ∈ intRange a b ↔ a ≤ x ∧ x ≤ b := by
  rw [intRange, mem_intRangeAux]
  omega

lemma pairwise_intRangeAux {a : Int} {n : Nat} :
    (intRangeAux a n).Pairwise (· < ·) := by
  induction n generalizing a with
  | zero => exact List.Pairwise.nil
  | succ k ih =>
    refine List.Pairwise.cons ?_ ih
    intro x hx
    have := mem_intRangeAux.mp hx
    omega

lemma pairwise_intRange {a b : Int} : (intRange a b).Pairwise (· < ·) :=
  pairwise_intRangeAux

lemma monthOverlaps_iff {y m : Int} {s e : PyDateTime}
    (hs : dtValid s) (he : dtValid e) (h : dtLe s e = true) :
    monthOverlaps y m s e ↔
      (1 ≤ m ∧ m ≤ 12 ∧
        (s.year < y ∨ (s.year = y ∧ s.month ≤ m)) ∧
        (y < e.year ∨ (y = e.year ∧ m ≤ e.month))) := by
  obtain ⟨hs1, hs2⟩ := hs
  obtain ⟨he1, he2⟩ := he
  simp only [dtLe, decide_eq_true_eq] at h
  constructor
  · rintro ⟨t, ⟨ht1, ht2⟩, hty, htm, hst, hte⟩
    simp only [dtLe, decide_eq_true_eq] at hst hte
    subst hty htm
    exact ⟨ht1, ht2, by omega, by omega⟩
  · rintro ⟨h1, h2, h3, h4⟩
    by_cases hc1 : y = s.year ∧ m = s.month
    · refine ⟨s, ⟨hs1, hs2⟩, hc1.1.symm, hc1.2.symm, ?_, ?_⟩ <;>
        first
          | (simp only [dtLe, decide_eq_true_eq]; omega)
          | simp [dtLe]
    · by_cases hc2 : y = e.year ∧ m = e.month
      · refine ⟨e, ⟨he1, he2⟩, hc2.1.symm, hc2.2.symm, ?_, ?_⟩ <;>
          first
            | (simp only [dtLe, decide_eq_true_eq]; omega)
            | simp [dtLe]
      · refine ⟨⟨y, m, 0⟩, ⟨h1, h2⟩, rfl, rfl, ?_, ?_⟩ <;>
          first
            | (simp only [dtLe, decide_eq_true_eq]; omega)
            | simp [dtLe]

lemma yearOverlaps_iff {y : Int} {s e : PyDateTime}
    (hs : dtValid s) (he : dtValid e) (h : dtLe s e = true) :
    yearOverlaps y s e ↔ s.year ≤ y ∧ y ≤ e.year := by
  obtain ⟨hs1, hs2⟩ := hs
  obtain ⟨he1, he2⟩ := he
  simp only [dtLe, decide_eq_true_eq] at h
  constructor
  · rintro ⟨t, ⟨ht1, ht2⟩, hty, hst, hte⟩
    simp only [dtLe, decide_eq_true_eq] at hst hte
    subst hty
    omega
  · rintro ⟨h1, h2⟩
    by_cases hc1 : y = s.year
    · refine ⟨s, ⟨hs1, hs2⟩, hc1.symm, ?_, ?_⟩ <;>
        first
          | (simp only [dtLe, decide_eq_true_eq]; omega)
          | simp [dtLe]
    · by_cases hc2 : y = e.year
      · refine ⟨e, ⟨he1, he2⟩, hc2.symm, ?_, ?_⟩ <;>
          first
            | (simp only [dtLe, decide_eq_true_eq]; omega)
            | simp [dtLe]
      · refine ⟨⟨y, 1, 0⟩, ⟨by simp, by simp⟩, rfl, ?_, ?_⟩ <;>
          first
            | (simp only [dtLe, decide_eq_true_eq]; omega)
            | simp [dtLe]

/-! ## Claims -/

/-- C4: for every start and end datetime with start at most end,
`split_by_partitions` for MONTH yields exactly the calendar months
overlapping the closed range, month-variant only, strictly ascending (so
gap-free against the membership characterisation, and duplicate-free);
and for YEAR exactly the overlapping calendar years, strictly ascending,
duplicate-free. -/
theorem c4_split_by_partitions_exact_ascending (s e : PyDateTime)
    (hs : dtValid s) (he : dtValid e) (h : dtLe s e = true) :
    split_by_partitions .month s e = .ok (monthPartitionsList s e) ∧
    split_by_partitions .year s e = .ok (yearPartitionsList s e) ∧
    (∀ y m : Int,
      Partition.month y m ∈ monthPartitionsList s e ↔ monthOverlaps y m s e) ∧
    (∀ p ∈ monthPartitionsList s e, ∃ y m : Int, p = Partition.month y m) ∧
    (monthPartitionsList s e).Pairwise (fun a b => Partition.lt a b = true) ∧
    (∀ y : Int, Partition.year y ∈ yearPartitionsList s e ↔ yearOverlaps y s e) ∧
    (∀ p ∈ yearPartitionsList s e, ∃ y : Int, p = Partition.year y) ∧
    (yearPartitionsList s e).Pairwise (fun a b => Partition.lt a b = true) := by
  have hne : dtLt e s = false := by
    simp only [dtLe, decide_eq_true_eq] at h
    simp only [dtLt, decide_eq_false_iff_not]
    omega
  have hyearle : s.year ≤ e.year := by
    simp only [dtLe, decide_eq_true_eq] at h
    omega
  refine ⟨by simp [split_by_partitions, hne], by simp [split_by_partitions, hne],
    ?_, ?_, ?_, ?_, ?_, ?_⟩
  · intro y m
    rw [monthOverlaps_iff hs he h]
    simp only [monthPartitionsList, List.mem_flatMap, List.mem_map,
      List.mem_filter, mem_intRange, decide_eq_true_eq, Partition.month.injEq]
    constructor
    · rintro ⟨y1, hy1, m1, ⟨⟨hm1, hm2⟩, hP⟩, rfl, rfl⟩
      exact ⟨hm1, hm2, by omega, by omega⟩
    · rintro ⟨h1, h2, h3, h4⟩
      simp only [dtLe, decide_eq_true_eq] at h
      exact ⟨y, ⟨by omega, by omega⟩, m, ⟨⟨h1, h2⟩, by omega⟩, rfl, rfl⟩
  · intro p hp
    simp only [monthPartitionsList, List.mem_flatMap, List.mem_map] at hp
    obtain ⟨y1, _, m1, _, rfl⟩ := hp
    exact ⟨y1, m1, rfl⟩
  · rw [monthPartitionsList, List.pairwise_flatMap]
    constructor
    · intro y _
      rw [List.pairwise_map]
      refine List.Pairwise.filter _ (pairwise_intRange.imp ?_)
      intro m1 m2 hm
      simp [Partition.lt, hm]
    · refine pairwise_intRange.imp ?_
      intro y1 y2 hy p1 hp1 p2 hp2
      simp only [List.mem_map] at hp1 hp2
      obtain ⟨m1, _, rfl⟩ := hp1
      obtain ⟨m2, _, rfl⟩ := hp2
      simp only [Partition.lt]
      rw [if_neg (by omega)]
      simp only [decide_eq_true_eq]
      exact hy
  · intro y
    rw [yearOverlaps_iff hs he h]
    simp only [yearPartitionsList, List.mem_map, mem_intRange, Partition.year.injEq]
    constructor
    · rintro ⟨y1, hy, rfl⟩
      exact hy
    · intro hy
      exact ⟨y, hy, rfl⟩
  · intro p hp
    simp only [yearPartitionsList, List.mem_map] at hp
    obtain ⟨y1, _, rfl⟩ := hp
    exact ⟨y1, rfl⟩
  · rw [yearPartitionsList, List.pairwise_map]
    refine pairwise_intRange.imp ?_
    intro y1 y2 hy
    simp only [Partition.lt, decide_eq_true_eq]
    exact hy

/-- C4 witness: the theorem applied at concrete dates. -/
theorem c4_witness :
    dtValid ⟨2020, 11, 5⟩ ∧ dtValid ⟨2021, 2, 7⟩ ∧
      dtLe ⟨2020, 11, 5⟩ ⟨2021, 2, 7⟩ = true ∧
      split_by_partitions .month ⟨2020, 11, 5⟩ ⟨2021, 2, 7⟩ =
        .ok (monthPartitionsList ⟨2020, 11, 5⟩ ⟨2021, 2, 7⟩) :=
  ⟨by constructor <;> norm_num, by constructor <;> norm_num, by decide,
    (c4_split_by_partitions_exact_ascending ⟨2020, 11, 5⟩ ⟨2021, 2, 7⟩
      (by constructor <;> norm_num) (by constructor <;> norm_num) (by decide)).1⟩

lemma isEmpty_eq_true_of_eq_nil {α : Type} {l : List α} (h : l = []) :
    l.isEmpty = true := by
  subst h
  rfl

lemma except_bind_ok {ε α β : Type} (a : α) (f : α → Except ε β) :
    (Except.ok a >>= f) = f a := rfl

lemma except_bind_error {ε α β : Type} (e : ε) (f : α → Except ε β) :
    ((Except.error e : Except ε α) >>= f) = .error e := rfl

lemma lastTime_cons {name name2 : Option String} {x : Int × Option ℚ}
    {l : List (Int × Option ℚ)} (h : l ≠ []) :
    PySeries.lastTime ⟨name, x :: l⟩ = PySeries.lastTime ⟨name2, l⟩ := by
  obtain ⟨y, ys, rfl⟩ := List.exists_cons_of_ne_nil h
  simp [PySeries.lastTime]

lemma isEmpty_false_of_ne_nil {α : Type} {l : List α} (h : l ≠ []) :
    l.isEmpty = false := by
  obtain ⟨y, ys, rfl⟩ := List.exists_cons_of_ne_nil h
  rfl

/-- C5: in the per-series resampling step `_resample`, for a non-empty
series: a first timestamp after the grid start gets exactly one synthetic
NaN sample prepended at the grid start, a first timestamp strictly before
the grid start raises the fatal out-of-range `RuntimeError`; and
symmetrically at the grid end a NaN sample is appended or the fatal
out-of-range `RuntimeError` is raised. -/
theorem c5_resample_edge_padding_and_range_errors (series : PySeries)
    (resampling_startpoint resampling_endpoint resolution : Int)
    (aggregation_methods : AggMethods) (interpolation_method : String)
    (interpolation_limit : Option Int) (hne : series.points ≠ []) :
    (series.firstTime > resampling_startpoint →
      padStart series resampling_startpoint =
        .ok ⟨series.name, (resampling_startpoint, none) :: series.points⟩) ∧
    (series.firstTime < resampling_startpoint →
      _resample series resampling_startpoint resampling_endpoint resolution
          aggregation_methods interpolation_method interpolation_limit =
        .error (.runtimeError ("Error - for " ++ optNameStr series.name ++
          ", first timestamp " ++ toString series.firstTime ++
          " is before the resampling start point " ++
          toString resampling_startpoint))) ∧
    (resampling_startpoint ≤ series.firstTime →
      series.lastTime < resampling_endpoint →
      ∃ s1, padStart series resampling_startpoint = .ok s1 ∧
        padEnd s1 resampling_endpoint =
          .ok ⟨series.name, s1.points ++ [(resampling_endpoint, none)]⟩) ∧
    (resampling_startpoint ≤ series.firstTime →
      series.lastTime > resampling_endpoint →
      _resample series resampling_startpoint resampling_endpoint resolution
          aggregation_methods interpolation_method interpolation_limit =
        .error (.runtimeError ("Error - for " ++ optNameStr series.name ++
          ", last timestamp " ++ toString series.lastTime ++
          " is later than the resampling end point " ++
          toString resampling_endpoint))) := by
  have hE : series.points.isEmpty = false := isEmpty_false_of_ne_nil hne
  refine ⟨?_, ?_, ?_, ?_⟩
  · intro h1
    rw [padStart, if_pos h1]
  · intro h1
    have hp : padStart series resampling_startpoint = .error
        (.runtimeError ("Error - for " ++ optNameStr series.name ++
          ", first timestamp " ++ toString series.firstTime ++
          " is before the resampling start point " ++
          toString resampling_startpoint)) := by
      rw [padStart, if_neg (by omega), if_pos h1]
    simp [_resample, hE, hp, except_bind_error]
  · intro h1 h2
    by_cases hgt : series.firstTime > resampling_startpoint
    · refine ⟨⟨series.name, (resampling_startpoint, none) :: series.points⟩,
        by rw [padStart, if_pos hgt], ?_⟩
      have hlast : PySeries.lastTime
          ⟨series.name, (resampling_startpoint, none) :: series.points⟩ =
          series.lastTime := lastTime_cons hne
      rw [padEnd, hlast, if_pos h2]
    · have heq : series.firstTime = resampling_startpoint := by omega
      refine ⟨series, by rw [padStart, if_neg hgt, if_neg (by omega)], ?_⟩
      rw [padEnd, if_pos h2]
  · intro h1 h2
    by_cases hgt : series.firstTime > resampling_startpoint
    · have hp1 : padStart series resampling_startpoint =
          .ok ⟨series.name, (resampling_startpoint, none) :: series.points⟩ := by
        rw [padStart, if_pos hgt]
      have hlast : PySeries.lastTime
          ⟨series.name, (resampling_startpoint, none) :: series.points⟩ =
          series.lastTime := lastTime_cons hne
      have hp2 : padEnd
          ⟨series.name, (resampling_startpoint, none) :: series.points⟩
          resampling_endpoint = .error
          (.runtimeError ("Error - for " ++ optNameStr series.name ++
            ", last timestamp " ++ toString series.lastTime ++
            " is later than the resampling end point " ++
            toString resampling_endpoint)) := by
        rw [padEnd, hlast, if_neg (by omega), if_pos h2]
      simp [_resample, hE, hp1, hp2, except_bind_ok, except_bind_error]
    · have hp1 : padStart series resampling_startpoint = .ok series := by
        rw [padStart, if_neg hgt, if_neg (by omega)]
      have hp2 : padEnd series resampling_endpoint = .error
          (.runtimeError ("Error - for " ++ optNameStr series.name ++
            ", last timestamp " ++ toString series.lastTime ++
            " is later than the resampling end point " ++
            toString resampling_endpoint)) := by
        rw [padEnd, if_neg (by omega), if_pos h2]
      simp [_resample, hE, hp1, hp2, except_bind_ok, except_bind_error]

/-- C5 witness: a series starting before the grid start makes `_resample`
raise the out-of-range `RuntimeError`. -/
theorem c5_witness :
    exSeriesEarly.points ≠ [] ∧
      ∃ msg, _resample exSeriesEarly 3 10 5 exMeanAgg "linear_interpolation"
        none = .error (.runtimeError msg) :=
  ⟨by decide,
    ⟨_, (c5_resample_edge_padding_and_range_errors exSeriesEarly 3 10 5
      exMeanAgg "linear_interpolation" none (by decide)).2.1 (by decide)⟩⟩

/-- C8: every successful `join_timeseries` result is a table with zero
missing (NaN) cells, for any input series, resolution, aggregation
methods, interpolation method and interpolation limit. -/
theorem c8_join_output_has_no_missing_cells (series_iterable : List PySeries)
    (resampling_startpoint resampling_endpoint resolution : Int)
    (aggregation_methods : AggMethods) (interpolation_method : String)
    (interpolation_limit : Option Int) (tbl : PyTable) (meta : JoinMetadata)
    (h : join_timeseries series_iterable resampling_startpoint
      resampling_endpoint resolution aggregation_methods interpolation_method
      interpolation_limit = .ok (tbl, meta)) :
    ∀ r ∈ tbl.rows, ∀ c ∈ r.2, c.isSome = true := by
  rw [join_timeseries] at h
  cases hjl : joinLoop resampling_startpoint resampling_endpoint resolution
      aggregation_methods interpolation_method interpolation_limit
      series_iterable [] [] [] with
  | error e =>
    rw [hjl, except_bind_error] at h
    exact absurd h (by simp)
  | ok state =>
    rw [hjl, except_bind_ok] at h
    obtain ⟨frames, missing, md⟩ := state
    cases hmv : missing.isEmpty with
    | false =>
      simp only [hmv] at h
      simp at h
    | true =>
      simp only [hmv] at h
      cases frames with
      | nil => simp at h
      | cons f0 fs =>
        rw [if_neg (by simp)] at h
        rw [Except.ok.injEq, Prod.mk.injEq] at h
        obtain ⟨htbl, -⟩ := h
        subst htbl
        intro r hr c hc
        simp only [dropnaTable, List.mem_filter] at hr
        rw [List.all_eq_true] at hr
        exact hr.2 c hc

/-- C8 witness: a concrete successful join, every cell present. -/
theorem c8_witness :
    join_timeseries [exSeriesIn] 0 10 5 exMeanAgg "linear_interpolation" none =
      .ok (⟨[.flat (some "a")], [(0, [some 1]), (5, [some (3 / 2)]), (10, [some 2])]⟩,
        ⟨[⟨some "a", 2, some 3⟩], 3, 3⟩) ∧
    ∀ r ∈ (⟨[.flat (some "a")],
        [(0, [some 1]), (5, [some (3 / 2)]), (10, [some 2])]⟩ : PyTable).rows,
      ∀ c ∈ r.2, c.isSome = true := by
  have h0 : join_timeseries [exSeriesIn] 0 10 5 exMeanAgg
      "linear_interpolation" none =
      .ok (⟨[.flat (some "a")], [(0, [some 1]), (5, [some (3 / 2)]), (10, [some 2])]⟩,
        ⟨[⟨some "a", 2, some 3⟩], 3, 3⟩) := by decide
  exact ⟨h0, c8_join_output_has_no_missing_cells [exSeriesIn] 0 10 5 exMeanAgg
    "linear_interpolation" none _ _ h0⟩

lemma _resample_empty {series : PySeries}
    (resampling_startpoint resampling_endpoint resolution : Int)
    (aggregation_methods : AggMethods) (interpolation_method : String)
    (interpolation_limit : Option Int) (h : series.points = []) :
    _resample series resampling_startpoint resampling_endpoint resolution
      aggregation_methods interpolation_method interpolation_limit =
      .error .indexError := by
  simp [_resample, h]

lemma joinLoop_all_attempted
    (resampling_startpoint resampling_endpoint resolution : Int)
    (aggregation_methods : AggMethods) (interpolation_method : String)
    (interpolation_limit : Option Int) :
    ∀ (ls : List PySeries) (frames : List PyFrame)
      (missing : List (Option String)) (md : List SeriesMetadata),
      (∀ s ∈ ls, s.points ≠ [] →
        ∃ fr, _resample s resampling_startpoint resampling_endpoint resolution
          aggregation_methods interpolation_method interpolation_limit = .ok fr) →
      ∃ frames2 md2,
        joinLoop resampling_startpoint resampling_endpoint resolution
          aggregation_methods interpolation_method interpolation_limit
          ls frames missing md =
        .ok (frames2,
          missing ++ (ls.filter (fun s => s.points.isEmpty)).map PySeries.name,
          md2) := by
  intro ls
  induction ls with
  | nil =>
    intro frames missing md _
    exact ⟨frames, md, by simp [joinLoop]⟩
  | cons s rest ih =>
    intro frames missing md hok
    by_cases hs : s.points = []
    · have hres := _resample_empty resampling_startpoint resampling_endpoint
        resolution aggregation_methods interpolation_method interpolation_limit hs
      obtain ⟨f2, m2, hrec⟩ := ih frames (missing ++ [s.name])
        (md ++ [⟨s.name, s.points.length, none⟩])
        (fun x hx => hok x (List.mem_cons_of_mem _ hx))
      refine ⟨f2, m2, ?_⟩
      simp only [joinLoop, hres]
      rw [hrec]
      simp [List.filter_cons, isEmpty_eq_true_of_eq_nil hs, List.append_assoc]
    · obtain ⟨fr, hres⟩ := hok s (List.mem_cons_self _ _) hs
      obtain ⟨f2, m2, hrec⟩ := ih (frames ++ [fr]) missing
        (md ++ [⟨s.name, s.points.length, some fr.rows.length⟩])
        (fun x hx => hok x (List.mem_cons_of_mem _ hx))
      refine ⟨f2, m2, ?_⟩
      simp only [joinLoop, hres]
      rw [hrec]
      simp [List.filter_cons, isEmpty_false_of_ne_nil hs]

/-- C2 counterexample: a series that produces zero rows at a later stage
of resampling (here an all-NaN series whose every bucket aggregates to
NaN and is dropped) is not recorded as missing data, and the join
succeeds instead of failing with `InsufficientDataError`; its metadata
records the zero resampled length. -/
theorem c2_counterexample_zero_row_series_join_succeeds :
    join_timeseries [exSeriesIn, exSeriesAllNaN] 0 10 5 exMeanAgg
      "linear_interpolation" none =
      .ok (⟨[.flat (some "a"), .flat (some "b")], []⟩,
        ⟨[⟨some "a", 2, some 3⟩, ⟨some "b", 2, some 0⟩], 0, 0⟩) := by
  decide

/-- C2 amended: in `join_timeseries`, every input series that is entirely
empty (zero samples) is recorded, all input series are attempted before
the failure is surfaced provided no series raises a different error
(such as the out-of-range `RuntimeError`, which aborts at once), and if
at least one empty series exists the whole join fails with
`InsufficientDataError` naming exactly the empty series in input order;
a series that merely produces zero rows at a later stage of resampling
is not recorded and does not cause the join to fail. -/
theorem c2_amended_join_names_all_empty_series (series_iterable : List PySeries)
    (resampling_startpoint resampling_endpoint resolution : Int)
    (aggregation_methods : AggMethods) (interpolation_method : String)
    (interpolation_limit : Option Int)
    (hok : ∀ s ∈ series_iterable, s.points ≠ [] →
      ∃ fr, _resample s resampling_startpoint resampling_endpoint resolution
        aggregation_methods interpolation_method interpolation_limit = .ok fr)
    (hex : ∃ s ∈ series_iterable, s.points = []) :
    join_timeseries series_iterable resampling_startpoint resampling_endpoint
      resolution aggregation_methods interpolation_method interpolation_limit =
      .error (.insufficientData
        ((series_iterable.filter (fun s => s.points.isEmpty)).map PySeries.name)) := by
  obtain ⟨frames2, md2, hloop⟩ := joinLoop_all_attempted resampling_startpoint
    resampling_endpoint resolution aggregation_methods interpolation_method
    interpolation_limit series_iterable [] [] [] hok
  have hne : (series_iterable.filter (fun s => s.points.isEmpty)).map
      PySeries.name ≠ [] := by
    obtain ⟨s, hs, hsp⟩ := hex
    have : s ∈ series_iterable.filter (fun s => s.points.isEmpty) :=
      List.mem_filter.mpr ⟨hs, isEmpty_eq_true_of_eq_nil hsp⟩
    intro hcon
    rw [List.map_eq_nil_iff] at hcon
    rw [hcon] at this
    exact absurd this (List.not_mem_nil s)
  rw [join_timeseries, hloop, except_bind_ok]
  simp [isEmpty_false_of_ne_nil hne]

/-- C2 witness: a concrete join over one resampling series and one empty
series fails with `InsufficientDataError` naming exactly the empty
series. -/
theorem c2_witness :
    join_timeseries [exSeriesIn, exSeriesEmpty] 0 10 5 exMeanAgg
      "linear_interpolation" none = .error (.insufficientData [some "c"]) := by
  have hok : ∀ s ∈ [exSeriesIn, exSeriesEmpty], s.points ≠ [] →
      ∃ fr, _resample s 0 10 5 exMeanAgg "linear_interpolation" none = .ok fr := by
    intro s hs hne
    simp only [List.mem_cons, List.not_mem_nil, or_false] at hs
    rcases hs with rfl | rfl
    · exact ⟨⟨some "a", none, [(0, [some 1]), (5, [some (3 / 2)]), (10, [some 2])]⟩,
        by decide⟩
    · exact absurd rfl hne
  have := c2_amended_join_names_all_empty_series [exSeriesIn, exSeriesEmpty]
    0 10 5 exMeanAgg "linear_interpolation" none hok
    ⟨exSeriesEmpty, by simp, rfl⟩
  simpa using this

/-- C1 counterexample: with the tag directory found but no existing file
for the single requested partition, `files_lookup` returns the
null-locations variant (`locations = None`, `available()` false), not an
empty non-null mapping. -/
theorem c1_counterexample_no_files_gives_null_locations :
    (∀ p ∈ [Partition.year 2020],
      exLookupEmpty.findLocation "base/tag1" (quote_tag_name exTag.name) p = none) ∧
    (exLookupEmpty.files_lookup "base/tag1" exTag [Partition.year 2020]).locations = none ∧
    (exLookupEmpty.files_lookup "base/tag1" exTag [Partition.year 2020]).available = false := by
  decide

lemma filesLookupLocations_of_none {lookup : NcsLookup} {tag_dir tag_name : String} :
    ∀ (partitions : List Partition) (acc : List (Partition × Location)),
      (∀ p ∈ partitions, lookup.findLocation tag_dir tag_name p = none) →
      lookup.filesLookupLocations tag_dir tag_name partitions acc = acc := by
  intro partitions
  induction partitions with
  | nil => intro acc _; rfl
  | cons p rest ih =>
    intro acc h
    have hp := h p (List.mem_cons_self _ _)
    simp only [NcsLookup.filesLookupLocations, hp]
    exact ih acc (fun q hq => h q (List.mem_cons_of_mem _ hq))

/-- C1 amended: when the tag directory was found but `files_lookup` finds
no existing, size-compliant file for any requested partition, it returns
the same null-locations representation as the directory-missing case:
`locations = None` and `available()` false; a non-null mapping is
returned only when at least one partition resolved. -/
theorem c1_amended_no_files_gives_null_locations (lookup : NcsLookup)
    (tag_dir : String) (tag : SensorTag) (partitions : List Partition)
    (h : ∀ p ∈ partitions,
      lookup.findLocation tag_dir (quote_tag_name tag.name) p = none) :
    lookup.files_lookup tag_dir tag partitions = ⟨tag, none⟩ ∧
    (lookup.files_lookup tag_dir tag partitions).available = false := by
  have hfold := filesLookupLocations_of_none partitions
    ([] : List (Partition × Location)) h
  constructor
  · rw [NcsLookup.files_lookup]
    simp [hfold]
  · rw [NcsLookup.files_lookup]
    simp [hfold, TagLocations.available]

/-- C1 amended witness: the amended theorem applied to the empty
storage. -/
theorem c1_witness :
    (∀ p ∈ [Partition.year 2020],
      exLookupEmpty.findLocation "base/tag1" (quote_tag_name exTag.name) p = none) ∧
    exLookupEmpty.files_lookup "base/tag1" exTag [Partition.year 2020] = ⟨exTag, none⟩ :=
  ⟨by decide,
    (c1_amended_no_files_gives_null_locations exLookupEmpty "base/tag1" exTag
      [Partition.year 2020] (by decide)).1⟩

lemma firstSome_congr {α β : Type} {l : List α} {f g : α → Option β}
    (h : ∀ x ∈ l, f x = g x) : firstSome l f = firstSome l g := by
  induction l with
  | nil => rfl
  | cons x xs ih =>
    simp only [firstSome, h x (List.mem_cons_self _ _)]
    cases g x with
    | some y => rfl
    | none => exact ih (fun z hz => h z (List.mem_cons_of_mem _ hz))

lemma paths_storage_invariant (ft : NcsFileType) (fs1 fs2 : FileSystem)
    (tag_name : String) (partitions : List Partition) :
    ft.paths fs1 tag_name partitions = ft.paths fs2 tag_name partitions := by
  cases ft <;> rfl

lemma validate_condition_removeFile {lookup : NcsLookup} {max_size : Int}
    {oversize_path : String} {file_info : FileInfo}
    (h1 : lookup.max_file_size = some max_size)
    (h2 : lookup.storage.files oversize_path = some file_info)
    (h3 : file_info.size > max_size) (q : String) :
    (lookup.storage.pathExists q && lookup.validate_file q) =
      ((removeFileFromLookup lookup oversize_path).storage.pathExists q &&
        (removeFileFromLookup lookup oversize_path).validate_file q) := by
  by_cases hq : q = oversize_path
  · subst hq
    simp only [FileSystem.pathExists, NcsLookup.validate_file, FileSystem.info,
      removeFileFromLookup, removeFileFromStorage, h1, h2, if_pos rfl,
      Option.isSome_some, Option.isSome_none, Bool.true_and, Bool.false_and]
    simp [h3]
  · simp only [FileSystem.pathExists, NcsLookup.validate_file, FileSystem.info,
      removeFileFromLookup, removeFileFromStorage, h1, if_neg hq]

lemma findLocation_removeFile {lookup : NcsLookup} {max_size : Int}
    {oversize_path : String} {file_info : FileInfo}
    (h1 : lookup.max_file_size = some max_size)
    (h2 : lookup.storage.files oversize_path = some file_info)
    (h3 : file_info.size > max_size)
    (tag_dir tag_name : String) (partition : Partition) :
    lookup.findLocation tag_dir tag_name partition =
      (removeFileFromLookup lookup oversize_path).findLocation
        tag_dir tag_name partition := by
  rw [NcsLookup.findLocation, NcsLookup.findLocation]
  refine firstSome_congr ?_
  intro ft _
  by_cases hcp : ft.check_partition partition
  · rw [if_pos hcp, if_pos hcp]
    rw [paths_storage_invariant ft
      (removeFileFromLookup lookup oversize_path).storage lookup.storage]
    refine firstSome_congr ?_
    intro pp _
    have hj : (removeFileFromLookup lookup oversize_path).storage.join tag_dir pp.2 =
        lookup.storage.join tag_dir pp.2 := rfl
    simp only [hj, validate_condition_removeFile h1 h2 h3]
  · rw [if_neg hcp, if_neg hcp]

lemma filesLookupLocations_removeFile {lookup : NcsLookup} {max_size : Int}
    {oversize_path : String} {file_info : FileInfo}
    (h1 : lookup.max_file_size = some max_size)
    (h2 : lookup.storage.files oversize_path = some file_info)
    (h3 : file_info.size > max_size) (tag_dir tag_name : String) :
    ∀ (partitions : List Partition) (acc : List (Partition × Location)),
      lookup.filesLookupLocations tag_dir tag_name partitions acc =
        (removeFileFromLookup lookup oversize_path).filesLookupLocations
          tag_dir tag_name partitions acc := by
  intro partitions
  induction partitions with
  | nil => intro acc; rfl
  | cons p rest ih =>
    intro acc
    rw [NcsLookup.filesLookupLocations, NcsLookup.filesLookupLocations,
      ← findLocation_removeFile h1 h2 h3 tag_dir tag_name p]
    cases lookup.findLocation tag_dir tag_name p with
    | some location => exact ih (assocSet acc p location)
    | none => exact ih acc

/-- C3: during `files_lookup`, a candidate file that exists but whose
size exceeds the configured maximum is treated identically to a missing
file: for every partition, resolution proceeds over the probes in
priority order exactly as if the oversize file did not exist, and no
error is raised (the whole lookup result is unchanged by deleting the
oversize file from the storage). -/
theorem c3_oversize_file_treated_as_missing (lookup : NcsLookup)
    (max_size : Int) (oversize_path : String) (file_info : FileInfo)
    (h1 : lookup.max_file_size = some max_size)
    (h2 : lookup.storage.files oversize_path = some file_info)
    (h3 : file_info.size > max_size) :
    (∀ tag_dir tag_name partition,
      lookup.findLocation tag_dir tag_name partition =
        (removeFileFromLookup lookup oversize_path).findLocation
          tag_dir tag_name partition) ∧
    (∀ tag_dir tag partitions,
      lookup.files_lookup tag_dir tag partitions =
        (removeFileFromLookup lookup oversize_path).files_lookup
          tag_dir tag partitions) := by
  refine ⟨fun tag_dir tag_name partition =>
    findLocation_removeFile h1 h2 h3 tag_dir tag_name partition, ?_⟩
  intro tag_dir tag partitions
  rw [NcsLookup.files_lookup, NcsLookup.files_lookup,
    filesLookupLocations_removeFile h1 h2 h3 tag_dir (quote_tag_name tag.name)
      partitions []]

/-- C3 witness: the theorem applied to a storage holding one oversize
yearly parquet file; the lookup behaves as if the file were missing. -/
theorem c3_witness :
    exLookupOversize.max_file_size = some 1000000000 ∧
    exLookupOversize.storage.files exOversizePath = some ⟨false, 2000000000⟩ ∧
    ((2000000000 : Int) > 1000000000) ∧
    exLookupOversize.files_lookup "dir" exTag [Partition.year 2020] =
      (removeFileFromLookup exLookupOversize exOversizePath).files_lookup
        "dir" exTag [Partition.year 2020] :=
  ⟨by decide, by decide, by decide,
    (c3_oversize_file_treated_as_missing exLookupOversize 1000000000
      exOversizePath ⟨false, 2000000000⟩ (by decide) (by decide) (by decide)).2
      "dir" exTag [Partition.year 2020]⟩

lemma readLocationsLoop_false_inr (reader : NcsReader) :
    ∀ (its : List (SensorTag × Partition × Location))
      (acc : List (List (PyDateTime × Option ℚ × Int))),
      ∃ res, readLocationsLoop reader false its acc = .inr res := by
  intro its
  induction its with
  | nil => intro acc; exact ⟨acc, rfl⟩
  | cons ent rest ih =>
    intro acc
    obtain ⟨tag, partition, location⟩ := ent
    cases hinfo : reader.storage.info location.path with
    | none =>
      obtain ⟨res, hres⟩ := ih acc
      exact ⟨res, by rw [readLocationsLoop, hinfo]; exact hres⟩
    | some fi =>
      cases hdf : reader.storage.readDf location.path location.file_type with
      | none =>
        obtain ⟨res, hres⟩ := ih acc
        refine ⟨res, ?_⟩
        rw [readLocationsLoop, hinfo]
        simp only [Bool.false_eq_true, if_false, hdf]
        exact hres
      | some df =>
        obtain ⟨res, hres⟩ := ih
          (acc ++ [(processPartitionDf reader.remove_status_codes df).rows])
        refine ⟨res, ?_⟩
        rw [readLocationsLoop, hinfo]
        simp only [Bool.false_eq_true, if_false, hdf]
        exact hres

lemma keepLast_filter {α : Type} (t : PyDateTime) :
    ∀ rows : List (PyDateTime × α),
      (keepLastOccurrence rows).filter (fun r => decide (r.1 = t)) =
        ((rows.filter (fun r => decide (r.1 = t))).getLast?).toList := by
  intro rows
  induction rows with
  | nil => rfl
  | cons r rest ih =>
    rw [keepLastOccurrence, List.filter_append]
    by_cases hrt : r.1 = t
    · by_cases hany : rest.any (fun r2 => decide (r2.1 = r.1))
      · rw [if_pos hany]
        simp only [List.filter_nil, List.nil_append, ih]
        rw [List.filter_cons, if_pos (by simp [hrt])]
        have hne : rest.filter (fun r2 => decide (r2.1 = t)) ≠ [] := by
          rw [List.any_eq_true] at hany
          obtain ⟨x, hx, hxt⟩ := hany
          have hmem : x ∈ rest.filter (fun r2 => decide (r2.1 = t)) := by
            refine List.mem_filter.mpr ⟨hx, ?_⟩
            simp only [decide_eq_true_eq] at hxt ⊢
            rw [hxt, hrt]
          intro hcon
          rw [hcon] at hmem
          exact absurd hmem (List.not_mem_nil x)
        obtain ⟨y, ys, hys⟩ := List.exists_cons_of_ne_nil hne
        rw [hys, List.getLast?_cons_cons]
      · rw [if_neg hany]
        have hfr : rest.filter (fun r2 => decide (r2.1 = t)) = [] := by
          rw [List.filter_eq_nil_iff]
          intro x hx hxt
          simp only [decide_eq_true_eq] at hxt
          exact hany (List.any_eq_true.mpr ⟨x, hx, by simp [hxt, hrt]⟩)
        simp [List.filter_cons, hrt, ih, hfr]
    · have hfl : List.filter (fun r2 => decide (r2.1 = t))
          (if rest.any (fun r2 => decide (r2.1 = r.1)) then
            ([] : List (PyDateTime × α)) else [r]) = [] := by
        by_cases hany : rest.any (fun r2 => decide (r2.1 = r.1))
        · rw [if_pos hany]; rfl
        · rw [if_neg hany]
          simp [hrt]
      rw [hfl, List.nil_append, ih, List.filter_cons, if_neg (by simp [hrt])]

lemma hasDuplicateIndex_of_two {α : Type} (t : PyDateTime) :
    ∀ rows : List (PyDateTime × α),
      2 ≤ (rows.filter (fun r => decide (r.1 = t))).length →
      hasDuplicateIndex rows = true := by
  intro rows
  induction rows with
  | nil => intro h; simp [List.filter_nil] at h
  | cons r rest ih =>
    intro h
    rw [List.filter_cons] at h
    rw [hasDuplicateIndex, Bool.or_eq_true]
    by_cases hrt : r.1 = t
    · rw [if_pos (by simp [hrt])] at h
      have hne : rest.filter (fun r2 => decide (r2.1 = t)) ≠ [] := by
        intro hcon
        rw [List.length_cons, hcon] at h
        simp at h
      left
      rw [List.any_eq_true]
      have hex := List.exists_mem_of_ne_nil _ hne
      obtain ⟨x, hx⟩ := hex
      have hxf := List.mem_filter.mp hx
      refine ⟨x, hxf.1, ?_⟩
      have := hxf.2
      simp only [decide_eq_true_eq] at this ⊢
      rw [this, hrt]
    · rw [if_neg (by simp [hrt])] at h
      exact Or.inr (ih h)

/-- C6: in `read_tag_locations`, whenever the concatenation of all
partition frames of one tag holds a duplicated timestamp, the returned
series keeps exactly one sample at that timestamp, and its value is the
value of the last occurrence in the concatenated rows (never the
first). -/
theorem c6_read_tag_locations_keeps_last_duplicate (reader : NcsReader)
    (tag_locations : TagLocations) (t : PyDateTime)
    (hdup : 2 ≤ ((reader.combinedPartitions tag_locations).filter
      (fun r => decide (r.1 = t))).length) :
    (reader.read_tag_locations tag_locations false).points.filter
        (fun p => decide (p.1 = t)) =
      (((reader.combinedPartitions tag_locations).filter
        (fun r => decide (r.1 = t))).getLast?).toList.map
        (fun r => (r.1, r.2.1)) := by
  obtain ⟨acc, hacc⟩ := readLocationsLoop_false_inr reader
    tag_locations.iterList []
  have hcombined : reader.combinedPartitions tag_locations =
      acc.foldr (· ++ ·) [] := by
    rw [NcsReader.combinedPartitions, hacc]
  rw [NcsReader.read_tag_locations, hacc]
  cases acc with
  | nil =>
    rw [hcombined] at hdup
    simp at hdup
  | cons a as =>
    have hdup2 : 2 ≤ (((a :: as).foldr (· ++ ·) []).filter
        (fun r => decide (r.1 = t))).length := by
      rw [hcombined] at hdup
      exact hdup
    have hdupT : hasDuplicateIndex ((a :: as).foldr (· ++ ·) []) = true :=
      hasDuplicateIndex_of_two t _ hdup2
    simp only [hdupT, if_pos]
    rw [hcombined, List.filter_map]
    simp only [Function.comp_def]
    rw [keepLast_filter]

/-- C6 witness: two partition files of one tag share a timestamp; the
returned series keeps exactly the later file's value there. -/
theorem c6_witness :
    2 ≤ ((exDupReader.combinedPartitions exDupTagLocations).filter
      (fun r => decide (r.1 = exDupT))).length ∧
    (exDupReader.read_tag_locations exDupTagLocations false).points.filter
        (fun p => decide (p.1 = exDupT)) =
      (((exDupReader.combinedPartitions exDupTagLocations).filter
        (fun r => decide (r.1 = exDupT))).getLast?).toList.map
        (fun r => (r.1, r.2.1)) :=
  ⟨by decide, c6_read_tag_locations_keeps_last_duplicate exDupReader
    exDupTagLocations exDupT (by decide)⟩

/-- C7: constructing an `NcsReader` with a bad partition-by string (one
naming no supported granularity) fails at once with the fatal
configuration error `ConfigException`. -/
theorem c7_bad_partition_by_raises_config_exception (storage : FileSystem)
    (assets_config : AssetsConfig) (threads : Option Int)
    (remove_status_codes : List Int) (dl_base_path : Option String)
    (lookup_for : Option (List String)) (storage_name : Option String)
    (max_file_size : Option Int) (s : String) (fts : List NcsFileType)
    (hname : PartitionBy.find_by_name s = none)
    (hlf : load_ncs_file_types (some (lookup_for.getD DEFAULT_TYPE_NAMES)) =
      .ok fts) :
    NcsReader.init storage assets_config threads remove_status_codes
      dl_base_path lookup_for storage_name none max_file_size (.str s) =
      .error (.configException ("Wrong partition_by argument " ++ s)) := by
  have hc : create_ncs_lookup storage (lookup_for.getD DEFAULT_TYPE_NAMES)
      (storage_name.getD storage.name) max_file_size =
      .ok ⟨storage, fts, storage_name.getD storage.name, max_file_size⟩ := by
    simp only [create_ncs_lookup, hlf, except_bind_ok]
  have hp : NcsReader.prepare_partition_by (.str s) =
      .error (.configException ("Wrong partition_by argument " ++ s)) := by
    simp [NcsReader.prepare_partition_by, hname]
  simp only [NcsReader.init, hc, except_bind_ok, hp, except_bind_error]

/-- C7 witness: the string "week" names no granularity and construction
fails with `ConfigException`. -/
theorem c7_witness :
    PartitionBy.find_by_name "week" = none ∧
    load_ncs_file_types
      (some ((none : Option (List String)).getD DEFAULT_TYPE_NAMES)) =
      .ok exAllTypes ∧
    NcsReader.init exEmptyStorage exEmptyAssets (some 1)
      DEFAULT_REMOVE_STATUS_CODES none none none none DEFAULT_MAX_FILE_SIZE
      (.str "week") =
      .error (.configException ("Wrong partition_by argument " ++ "week")) :=
  ⟨by decide, by decide,
    c7_bad_partition_by_raises_config_exception exEmptyStorage exEmptyAssets
      (some 1) DEFAULT_REMOVE_STATUS_CODES none none none
      DEFAULT_MAX_FILE_SIZE "week" exAllTypes (by decide) (by decide)⟩

/-- C9: the constructor rejects every caller-supplied `NcsLookup`
instance with `ConfigException`; construction succeeds with a
caller-supplied lookup only when the argument is `None`, in which case
the lookup is created internally from the reader's own storage, lookup
names and storage name. -/
theorem c9_caller_supplied_lookup_rejected (storage : FileSystem)
    (assets_config : AssetsConfig) (threads : Option Int)
    (remove_status_codes : List Int) (dl_base_path : Option String)
    (lookup_for : Option (List String)) (storage_name : Option String)
    (max_file_size : Option Int) (partition_by : PartitionByArg)
    (fts : List NcsFileType) (pb : PartitionBy)
    (hlf : load_ncs_file_types (some (lookup_for.getD DEFAULT_TYPE_NAMES)) =
      .ok fts)
    (hpb : NcsReader.prepare_partition_by partition_by = .ok pb) :
    (∀ nl : NcsLookup,
      NcsReader.init storage assets_config threads remove_status_codes
        dl_base_path lookup_for storage_name (some nl) max_file_size
        partition_by =
        .error (.configException "ncs_lookup should be instance of NcsLookup")) ∧
    NcsReader.init storage assets_config threads remove_status_codes
      dl_base_path lookup_for storage_name none max_file_size partition_by =
      .ok ⟨storage, assets_config, threads, remove_status_codes, dl_base_path,
        lookup_for.getD DEFAULT_TYPE_NAMES, storage_name.getD storage.name,
        ⟨storage, fts, storage_name.getD storage.name, max_file_size⟩, pb⟩ := by
  constructor
  · intro nl
    rfl
  · have hc : create_ncs_lookup storage (lookup_for.getD DEFAULT_TYPE_NAMES)
        (storage_name.getD storage.name) max_file_size =
        .ok ⟨storage, fts, storage_name.getD storage.name, max_file_size⟩ := by
      simp only [create_ncs_lookup, hlf, except_bind_ok]
    simp only [NcsReader.init, hc, except_bind_ok, hpb]

/-- C9 witness: a concrete constructor call with a caller-supplied
lookup raises `ConfigException`. -/
theorem c9_witness :
    load_ncs_file_types
      (some ((none : Option (List String)).getD DEFAULT_TYPE_NAMES)) =
      .ok exAllTypes ∧
    NcsReader.prepare_partition_by (.enum .month) = .ok .month ∧
    NcsReader.init exEmptyStorage exEmptyAssets (some 1)
      DEFAULT_REMOVE_STATUS_CODES none none none (some exLookupEmpty)
      DEFAULT_MAX_FILE_SIZE (.enum .month) =
      .error (.configException "ncs_lookup should be instance of NcsLookup") :=
  ⟨by decide, by decide,
    (c9_caller_supplied_lookup_rejected exEmptyStorage exEmptyAssets (some 1)
      DEFAULT_REMOVE_STATUS_CODES none none none DEFAULT_MAX_FILE_SIZE
      (.enum .month) exAllTypes .month (by decide) (by decide)).1
      exLookupEmpty⟩

/-- C10: a successful `load_series` call yields exactly the fetched
series filtered to the half-open train window: the result is the map,
over the resolved tag directories, of the series fetched by
`load_series_mapper` with its samples restricted to
`[train_start_date, train_end_date)`.  Consequently every yielded sample
lies in the window, and every in-window sample of a fetched series is
kept in the window-filtered points yielded for its tag. -/
theorem c10_load_series_filters_to_train_window (reader : NcsReader)
    (train_start_date train_end_date : PyDateTime) (tag_list : List SensorTag)
    (res : List RSeries)
    (h : reader.load_series train_start_date train_end_date tag_list false =
      .ok res) :
    ∃ (partitions : List Partition)
      (tag_dirs : List (SensorTag × Option String)),
      split_by_partitions reader.partition_by train_start_date train_end_date =
        .ok partitions ∧
      reader.ncs_lookup.assets_config_tags_lookup reader.assets_config
        tag_list reader.dl_base_path = .ok tag_dirs ∧
      res = tag_dirs.map (fun td =>
        ⟨(reader.load_series_mapper td partitions false).name,
          (reader.load_series_mapper td partitions false).points.filter
            (fun p => dtLe train_start_date p.1 && dtLt p.1 train_end_date)⟩) ∧
      (∀ s ∈ res, ∀ p ∈ s.points,
        dtLe train_start_date p.1 = true ∧ dtLt p.1 train_end_date = true) ∧
      (∀ td ∈ tag_dirs,
        ∀ p ∈ (reader.load_series_mapper td partitions false).points,
          dtLe train_start_date p.1 = true → dtLt p.1 train_end_date = true →
          p ∈ (reader.load_series_mapper td partitions false).points.filter
            (fun p => dtLe train_start_date p.1 && dtLt p.1 train_end_date)) := by
  rw [NcsReader.load_series] at h
  by_cases hord : dtLt train_end_date train_start_date
  · simp [hord] at h
  · simp only [hord, Bool.false_eq_true, if_false] at h
    cases hsp : split_by_partitions reader.partition_by train_start_date
        train_end_date with
    | error e =>
      rw [hsp, except_bind_error] at h
      exact absurd h (by simp)
    | ok partitions =>
      rw [hsp, except_bind_ok] at h
      cases hacl : reader.ncs_lookup.assets_config_tags_lookup
          reader.assets_config tag_list reader.dl_base_path with
      | error e =>
        rw [hacl, except_bind_error] at h
        exact absurd h (by simp)
      | ok tag_dirs =>
        rw [hacl, except_bind_ok, Except.ok.injEq] at h
        refine ⟨partitions, tag_dirs, rfl, rfl, h.symm, ?_, ?_⟩
        · intro s hs
          rw [← h] at hs
          obtain ⟨td, htd, rfl⟩ := List.mem_map.mp hs
          intro p hp
          have hmem := List.mem_filter.mp hp
          have hcond := hmem.2
          rw [Bool.and_eq_true] at hcond
          exact hcond
        · intro td htd p hp h1 h2
          refine List.mem_filter.mpr ⟨hp, ?_⟩
          rw [Bool.and_eq_true]
          exact ⟨h1, h2⟩

/-- C10 witness: a concrete `load_series` run yields exactly the
window-filter of the fetched series, keeping the one sample inside the
train window. -/
theorem c10_witness :
    exLSReader.load_series ⟨2020, 1, 1⟩ ⟨2020, 1, 7⟩ [exTag] false =
      .ok [⟨some "tag1", [(⟨2020, 1, 5⟩, some 2)]⟩] ∧
    ∃ (partitions : List Partition)
      (tag_dirs : List (SensorTag × Option String)),
      split_by_partitions exLSReader.partition_by ⟨2020, 1, 1⟩ ⟨2020, 1, 7⟩ =
        .ok partitions ∧
      exLSReader.ncs_lookup.assets_config_tags_lookup exLSReader.assets_config
        [exTag] exLSReader.dl_base_path = .ok tag_dirs ∧
      [(⟨some "tag1", [(⟨2020, 1, 5⟩, some 2)]⟩ : RSeries)] =
        tag_dirs.map (fun td =>
          ⟨(exLSReader.load_series_mapper td partitions false).name,
            (exLSReader.load_series_mapper td partitions false).points.filter
              (fun p => dtLe ⟨2020, 1, 1⟩ p.1 && dtLt p.1 ⟨2020, 1, 7⟩)⟩) ∧
      (∀ s ∈ [(⟨some "tag1", [(⟨2020, 1, 5⟩, some 2)]⟩ : RSeries)],
        ∀ p ∈ s.points,
          dtLe ⟨2020, 1, 1⟩ p.1 = true ∧ dtLt p.1 ⟨2020, 1, 7⟩ = true) ∧
      (∀ td ∈ tag_dirs,
        ∀ p ∈ (exLSReader.load_series_mapper td partitions false).points,
          dtLe ⟨2020, 1, 1⟩ p.1 = true → dtLt p.1 ⟨2020, 1, 7⟩ = true →
          p ∈ (exLSReader.load_series_mapper td partitions false).points.filter
            (fun p => dtLe ⟨2020, 1, 1⟩ p.1 && dtLt p.1 ⟨2020, 1, 7⟩)) := by
  have h0 : exLSReader.load_series ⟨2020, 1, 1⟩ ⟨2020, 1, 7⟩ [exTag] false =
      .ok [⟨some "tag1", [(⟨2020, 1, 5⟩, some 2)]⟩] := by
    have hsp : split_by_partitions exLSReader.partition_by ⟨2020, 1, 1⟩
        ⟨2020, 1, 7⟩ = .ok [Partition.month 2020 1] := by decide
    have htd : exLSReader.ncs_lookup.assets_config_tags_lookup
        exLSReader.assets_config [exTag] exLSReader.dl_base_path =
        .ok [(exTag, some "base/tag1")] := by decide
    have hmap : exLSReader.load_series_mapper (exTag, some "base/tag1")
        [Partition.month 2020 1] false =
        ⟨some "tag1", [(⟨2020, 1, 0⟩, some 1), (⟨2020, 1, 5⟩, some 2),
          (⟨2020, 2, 0⟩, some 3)]⟩ := by decide
    simp only [NcsReader.load_series]
    rw [if_neg (by decide)]
    rw [hsp, except_bind_ok, htd, except_bind_ok]
    simp only [List.map_cons, List.map_nil, hmap]
    decide
  exact ⟨h0, c10_load_series_filters_to_train_window exLSReader
    ⟨2020, 1, 1⟩ ⟨2020, 1, 7⟩ [exTag] _ h0⟩

end Proofs

end GordoDataset
